import Mathlib

/-!
Verification of the client-side Playback & Feed Synchronization Engine
(`src/client-ui/src/App.vue`).  The JavaScript is shallowly embedded:
JS numbers are modelled as rationals (`ℚ`), absent / non-finite numeric
fields as `Option ℚ`, the module-scoped mutable caches as explicit state
records, and the durable playback store (a JS object keyed by identity
string) as an insertion-ordered association list with unique keys.
-/

namespace PlaybackEngine

/-- JS `a || b` for numbers: `0` is falsy. -/
def jsOr (a b : ℚ) : ℚ := if a = 0 then b else a

/-- JS `a || b` for strings: `""` is falsy. -/
def jsOrS (a b : String) : String := if a = "" then b else a

/-- The whitespace class stripped by JS `String.prototype.trim`. -/
def isJsWhitespace (c : Char) : Bool :=
  c.toNat = 9 || c.toNat = 10 || c.toNat = 11 || c.toNat = 12 || c.toNat = 13 ||
    c.toNat = 32 || c.toNat = 160 || c.toNat = 0xFEFF

/-- JS `s.trim()`. -/
def jsTrim (s : String) : String :=
  String.mk (((s.data.dropWhile isJsWhitespace).reverse.dropWhile isJsWhitespace).reverse)

/-- ASCII lower-casing of one character (the URLs compared by the source
dedup are ASCII, so this models JS `toLowerCase` on them). -/
def lowerChar (c : Char) : Char :=
  if 65 ≤ c.toNat ∧ c.toNat ≤ 90 then Char.ofNat (c.toNat + 32) else c

/-- JS `s.toLowerCase()` (ASCII). -/
def jsToLower (s : String) : String :=
  String.mk (s.data.map lowerChar)

/-- One entry of the durable playback store (`playbackStore.items[identity]`).
`none` models an absent or non-finite JS field. -/
structure PlaybackRecord where
  time : Option ℚ := none
  duration : Option ℚ := none
  completed : Bool := false
  progress : Option ℚ := none
  updated_at : Nat := 0
deriving Repr, DecidableEq

/-- The fresh record `{}` created on first update for an identity. -/
def emptyRecord : PlaybackRecord := {}

/-- The `payload` argument of `updatePlaybackRecord`. -/
structure UpdatePayload where
  time : Option ℚ := none
  duration : Option ℚ := none
  completed : Option Bool := none
  force : Bool := false
deriving Repr, DecidableEq

/-- The `payload.time` merge step of `updatePlaybackRecord`:
`time` is only lowered when `force` is set. -/
def applyTime (record : PlaybackRecord) (p : UpdatePayload) : PlaybackRecord :=
  match p.time with
  | none => record
  | some t =>
    let safeTime := max 0 t
    if p.force ∨ record.time = none ∨ record.time.getD 0 ≤ safeTime then
      { record with time := some safeTime }
    else record

/-- The `payload.duration` merge step: `duration` only grows, and only
positive payloads are applied. -/
def applyDuration (record : PlaybackRecord) (p : UpdatePayload) : PlaybackRecord :=
  match p.duration with
  | none => record
  | some d =>
    if 0 < d then { record with duration := some (max (record.duration.getD 0) d) }
    else record

/-- The `payload.completed` merge step. -/
def applyCompleted (record : PlaybackRecord) (p : UpdatePayload) : PlaybackRecord :=
  match p.completed with
  | none => record
  | some c => { record with completed := c }

/-- The progress recomputation at the end of `updatePlaybackRecord`,
with `previousProgress` read before the payload was merged. -/
def recomputeProgress (record : PlaybackRecord) (previousProgress : ℚ) : PlaybackRecord :=
  if record.completed then
    { record with progress := some 100 }
  else if record.time.isSome ∧ record.duration.isSome ∧ 0 < record.duration.getD 0 then
    let nextProgress : ℚ :=
      min 100 ((Int.floor (record.time.getD 0 / record.duration.getD 0 * 100) : ℤ) : ℚ)
    { record with progress := some (max previousProgress nextProgress) }
  else if previousProgress ≠ 0 then
    { record with progress := some previousProgress }
  else record

/-- The record-level body of `updatePlaybackRecord`: merge the payload into
one record and stamp `updated_at` with the current time. -/
def applyPayload (record : PlaybackRecord) (p : UpdatePayload) (now : Nat) : PlaybackRecord :=
  let previousProgress := record.progress.getD 0
  let merged := applyCompleted (applyDuration (applyTime record p) p) p
  { recomputeProgress merged previousProgress with updated_at := now }

/-- The durable store `playbackStore.items`: a JS object keyed by identity,
modelled as an insertion-ordered association list with unique keys. -/
abbrev Store := List (String × PlaybackRecord)

/-- `playbackStore.items[identity]` (first matching key). -/
def storeGet (s : Store) (identity : String) : Option PlaybackRecord :=
  match s with
  | [] => none
  | e :: rest => if e.1 = identity then some e.2 else storeGet rest identity

/-- `playbackStore.items[identity] = record`: replace in place when the key
exists (JS objects keep the original key position), append otherwise. -/
def storeSet (s : Store) (identity : String) (r : PlaybackRecord) : Store :=
  match s with
  | [] => [(identity, r)]
  | e :: rest => if e.1 = identity then (identity, r) :: rest else e :: storeSet rest identity r

def PLAYBACK_STORE_LIMIT : Nat := 180

/-- The ordering used by `prunePlaybackStore`'s sort: ascending `updated_at`. -/
def pruneRel (a b : String × PlaybackRecord) : Prop :=
  a.2.updated_at ≤ b.2.updated_at

instance : DecidableRel pruneRel := fun a b =>
  inferInstanceAs (Decidable (a.2.updated_at ≤ b.2.updated_at))

instance : IsTotal (String × PlaybackRecord) pruneRel :=
  ⟨fun a b => Nat.le_total a.2.updated_at b.2.updated_at⟩

instance : IsTrans (String × PlaybackRecord) pruneRel :=
  ⟨fun _ _ _ h h2 => le_trans h h2⟩

/-- `prunePlaybackStore`: when over `PLAYBACK_STORE_LIMIT`, sort the entries
by ascending `updated_at` and delete the first `length - limit` keys.
Deleting keys from a JS object keeps the remaining entries in their
original order, hence the `filter` over the original store. -/
def prunePlaybackStore (s : Store) : Store :=
  if s.length ≤ PLAYBACK_STORE_LIMIT then s
  else
    let sorted := List.insertionSort pruneRel s
    let removeCount := s.length - PLAYBACK_STORE_LIMIT
    let victims := (sorted.take removeCount).map Prod.fst
    s.filter (fun e => decide (e.1 ∉ victims))

/-- `updatePlaybackRecord(identity, payload)` acting on the durable store;
`now` is `Date.now()`. -/
def updatePlaybackRecord (s : Store) (identity : String) (p : UpdatePayload) (now : Nat) : Store :=
  if identity = "" then s
  else
    let record := (storeGet s identity).getD emptyRecord
    let record := applyPayload record p now
    prunePlaybackStore (storeSet s identity record)

/-- `getStoredPlaybackRecord(identity)`. -/
def getStoredPlaybackRecord (s : Store) (identity : String) : Option PlaybackRecord :=
  if identity = "" then none else storeGet s identity

/-- `getStoredPlaybackPosition(identity)`: `Number(record?.time || 0)`. -/
def getStoredPlaybackPosition (s : Store) (identity : String) : ℚ :=
  if identity = "" then 0
  else ((getStoredPlaybackRecord s identity).bind (fun r => r.time)).getD 0

/-- `setStoredPlaybackPosition(identity, time, duration, force)`. -/
def setStoredPlaybackPosition (s : Store) (identity : String) (time duration : ℚ)
    (force : Bool) (now : Nat) : Store :=
  updatePlaybackRecord s identity { time := some time, duration := some duration, force := force } now

/-- `setStoredPlaybackCompleted(identity, completed)`. -/
def setStoredPlaybackCompleted (s : Store) (identity : String) (completed : Bool)
    (now : Nat) : Store :=
  updatePlaybackRecord s identity { completed := some completed } now

/-- A feed item as used by the identity resolver and the progress
projections.  Absent JS fields are the falsy defaults. -/
structure FeedItem where
  type : String := ""
  aweme_id : String := ""
  sec_user_id : String := ""
  web_rid : String := ""
  room_id : String := ""
  title : String := ""
  duration : ℚ := 0
deriving Repr, DecidableEq

/-- `WORK_TYPES = new Set(["video", "note", "live_record"])`. -/
def WORK_TYPES : List String := ["video", "note", "live_record"]

/-- `isPlayableItem(item)`. -/
def isPlayableItem (item : Option FeedItem) : Bool :=
  match item with
  | none => false
  | some i => WORK_TYPES.contains i.type

/-- `isPlayableType(type)`. -/
def isPlayableType (t : String) : Bool :=
  WORK_TYPES.contains t

/-- `getItemIdentity(item)`: type-qualified identity string, `""` when no
qualifying id is present. -/
def getItemIdentity (item : Option FeedItem) : String :=
  match item with
  | none => ""
  | some i =>
    if i.type = "live" then
      let liveId := jsOrS i.sec_user_id (jsOrS i.web_rid i.room_id)
      if liveId = "" then "" else "live:" ++ liveId
    else
      let awemeId := i.aweme_id
      let pfx := if i.type = "note" then "note" else "video"
      if awemeId = "" then "" else pfx ++ ":" ++ awemeId

/-- First-match lookup in a JS `Map` keyed by string. -/
def mapFind {α : Type} (m : List (String × α)) (k : String) : Option α :=
  match m with
  | [] => none
  | e :: rest => if e.1 = k then some e.2 else mapFind rest k

/-- `Map.set`: overwrite in place, append when new. -/
def mapSet {α : Type} (m : List (String × α)) (k : String) (v : α) : List (String × α) :=
  match m with
  | [] => [(k, v)]
  | e :: rest => if e.1 = k then (k, v) :: rest else e :: mapSet rest k v

/-- `Map.delete`. -/
def mapErase {α : Type} (m : List (String × α)) (k : String) : List (String × α) :=
  match m with
  | [] => []
  | e :: rest => if e.1 = k then rest else e :: mapErase rest k

/-- `Set.add` (JS sets keep insertion order). -/
def setAdd (s : List String) (k : String) : List String :=
  if k ∈ s then s else s ++ [k]

/-- The module-scoped playback caches: the durable store plus the in-memory
`playbackPositions` map, `playbackCompleted` set and `playbackPersisted` map. -/
structure CacheState where
  store : Store := []
  positions : List (String × ℚ) := []
  completedSet : List String := []
  persisted : List (String × ℚ) := []
deriving Repr, DecidableEq

/-- The player fields `preparePlaybackState` computes beyond its fixed reset:
`suppressAutoplay`, `replayReady` and `resumeTime`. -/
structure PrepState where
  suppressAutoplay : Bool := false
  replayReady : Bool := false
  resumeTime : ℚ := 0
deriving Repr, DecidableEq

/-- `preparePlaybackState(item)`: decide autoplay suppression / replay
affordance / resume offset for the incoming item, updating the in-memory
caches on the way.  The unconditional player-field reset at the top of the
source function is the `{}` default of `PrepState`. -/
def preparePlaybackState (cs : CacheState) (item : Option FeedItem) :
    CacheState × PrepState :=
  if ¬ isPlayableItem item then (cs, {}) else
  let identity := getItemIdentity item
  if identity = "" then (cs, {}) else
  let record := getStoredPlaybackRecord cs.store identity
  let cs1 :=
    if (record.map (fun r => r.completed)).getD false then
      { cs with completedSet := setAdd cs.completedSet identity }
    else cs
  if identity ∈ cs1.completedSet then
    (cs1, { suppressAutoplay := true, replayReady := true })
  else
    let cachedResume := (mapFind cs1.positions identity).getD 0
    let resumeAt0 := if 1 < cachedResume then cachedResume else 0
    let stored := getStoredPlaybackPosition cs1.store identity
    let cs2 :=
      if resumeAt0 = 0 ∧ stored ≠ 0 then
        { cs1 with positions := mapSet cs1.positions identity stored }
      else cs1
    let resumeAt := if resumeAt0 = 0 then stored else resumeAt0
    if resumeAt ≠ 0 ∧ 1 < resumeAt then (cs2, { resumeTime := resumeAt })
    else (cs2, {})

/-- `isPlaybackCompleted(item)`. -/
def isPlaybackCompleted (cs : CacheState) (item : Option FeedItem) : Bool :=
  if ¬ isPlayableItem item then false else
  let identity := getItemIdentity item
  if identity = "" then false else
  if identity ∈ cs.completedSet then true
  else ((getStoredPlaybackRecord cs.store identity).map (fun r => r.completed)).getD false

/-- `(item.map f).getD 0` for the `item.duration || 0` read. -/
def itemDuration (item : Option FeedItem) : ℚ :=
  (item.map (fun i => i.duration)).getD 0

/-- `getPlaybackPercent(item)`: the derived progress projection. -/
def getPlaybackPercent (cs : CacheState) (item : Option FeedItem) : ℚ :=
  if ¬ isPlayableItem item then 0 else
  let identity := getItemIdentity item
  let record := getStoredPlaybackRecord cs.store identity
  if ((record.map (fun r => r.completed)).getD false) ∨ identity ∈ cs.completedSet then 100 else
  let storedProgress : Option ℚ := record.bind (fun r => r.progress)
  let duration := jsOr ((record.bind (fun r => r.duration)).getD 0) (itemDuration item)
  if duration = 0 then storedProgress.getD 0 else
  let timeValue :=
    max ((mapFind cs.positions identity).getD 0) ((record.bind (fun r => r.time)).getD 0)
  let percent := min 100 (max 0 (timeValue / duration * 100))
  let normalized : ℚ := ((Int.floor percent : ℤ) : ℚ)
  match storedProgress with
  | some sp => min 100 (max sp normalized)
  | none => normalized

/-- The cache-state effects of `replayCurrent()` on the active item;
`videoDuration` models `videoRef.value?.duration || 0`.  The media-element
effects (seek to 0, `playMedia`) are outside the state model. -/
def replayCurrent (cs : CacheState) (item : Option FeedItem) (videoDuration : ℚ)
    (now : Nat) : CacheState :=
  if ¬ isPlayableItem item then cs else
  let identity := getItemIdentity item
  if identity = "" then cs else
  let record := getStoredPlaybackRecord cs.store identity
  let duration := jsOr ((record.bind (fun r => r.duration)).getD 0) videoDuration
  let cs := { cs with completedSet := cs.completedSet.erase identity }
  let cs := { cs with store := setStoredPlaybackCompleted cs.store identity false now }
  let cs := { cs with persisted := mapErase cs.persisted identity }
  let cs := { cs with store := setStoredPlaybackPosition cs.store identity 0 duration true now }
  let cs := { cs with positions := mapSet cs.positions identity 0 }
  { cs with persisted := mapSet cs.persisted identity 0 }

/-- The cache-state effects of `replayFromList(item, index)` (the identity
block that runs before any navigation). -/
def replayFromList (cs : CacheState) (item : Option FeedItem) (now : Nat) : CacheState :=
  if ¬ isPlayableItem item then cs else
  let identity := getItemIdentity item
  if identity = "" then cs else
  let cs := { cs with completedSet := cs.completedSet.erase identity }
  let cs := { cs with store := setStoredPlaybackCompleted cs.store identity false now }
  let cs := { cs with persisted := mapErase cs.persisted identity }
  let cs := { cs with positions := mapSet cs.positions identity 0 }
  let cs := { cs with persisted := mapSet cs.persisted identity 0 }
  let record := getStoredPlaybackRecord cs.store identity
  let duration := (record.bind (fun r => r.duration)).getD 0
  { cs with store := setStoredPlaybackPosition cs.store identity 0 duration true now }

/-- One entry of the produced source-candidate list. -/
structure SourceCandidate where
  id : String
  label : String
  url : String
deriving Repr, DecidableEq

/-- One raw entry of `detail.video_urls` (absent JS fields are `""`). -/
structure RawVideoSource where
  id : String := ""
  label : String := ""
  url : String := ""
deriving Repr, DecidableEq

/-- The item detail payload fields consumed by source resolution. -/
structure ItemDetail where
  upload_enabled : Option Bool := none
  video_urls : List RawVideoSource := []
  aweme_id : String := ""
  local_path : String := ""
  uploaded_origin_url : String := ""
  upload_origin_destination : String := ""
  uploaded_url : String := ""
  upload_destination : String := ""
  video_url : String := ""
  default_video_source : String := ""
deriving Repr, DecidableEq

/-- Upper-case hexadecimal digit, as produced by `encodeURIComponent`. -/
def hexDigit (n : Nat) : Char :=
  if n < 10 then Char.ofNat (48 + n) else Char.ofNat (55 + n)

/-- Bytes left unescaped by JS `encodeURIComponent`
(`A-Z a-z 0-9 - _ . ! ~ * ( )` and the apostrophe, byte 39). -/
def uriUnreservedByte (n : Nat) : Bool :=
  (65 ≤ n && n ≤ 90) || (97 ≤ n && n ≤ 122) || (48 ≤ n && n ≤ 57) ||
    (n == 45) || (n == 95) || (n == 46) || (n == 33) || (n == 126) ||
    (n == 42) || (n == 39) || (n == 40) || (n == 41)

/-- The UTF-8 bytes of one character. -/
def utf8Bytes (c : Char) : List Nat :=
  let n := c.toNat
  if n < 0x80 then [n]
  else if n < 0x800 then [0xC0 + n / 0x40, 0x80 + n % 0x40]
  else if n < 0x10000 then
    [0xE0 + n / 0x1000, 0x80 + (n / 0x40) % 0x40, 0x80 + n % 0x40]
  else
    [0xF0 + n / 0x40000, 0x80 + (n / 0x1000) % 0x40, 0x80 + (n / 0x40) % 0x40, 0x80 + n % 0x40]

/-- JS `encodeURIComponent`: percent-encode every UTF-8 byte outside the
unreserved set. -/
def encodeURIComponent (s : String) : String :=
  String.mk (s.data.flatMap (fun c => (utf8Bytes c).flatMap (fun n =>
    if uriUnreservedByte n then [Char.ofNat n]
    else [Char.ofNat 37, hexDigit (n / 16), hexDigit (n % 16)])))

/-- The `appendSource(sourceId, label, url)` closure of
`normalizeDetailVideoSources`: trim the url, drop empty ids/urls, dedupe by
the lower-cased url, default the label to the id. -/
def appendSource (acc : List SourceCandidate × List String)
    (sourceId label url : String) : List SourceCandidate × List String :=
  let target := jsTrim url
  if sourceId = "" ∨ target = "" then acc
  else
    let dedupeKey := jsToLower target
    if dedupeKey ∈ acc.2 then acc
    else (acc.1 ++ [{ id := sourceId, label := jsOrS label sourceId, url := target }],
          acc.2 ++ [dedupeKey])

/-- The loop over `detail.video_urls`, generating `source_{index+1}` ids for
entries without one. -/
def appendRawSources (acc : List SourceCandidate × List String)
    (raws : List RawVideoSource) (index : Nat) : List SourceCandidate × List String :=
  match raws with
  | [] => acc
  | item :: rest =>
    appendRawSources
      (appendSource acc (jsOrS item.id ("source_" ++ toString (index + 1))) item.label item.url)
      rest (index + 1)

/-- The explicit backend-provided pass of `normalizeDetailVideoSources`. -/
def explicitVideoSources (detail : ItemDetail) : List SourceCandidate × List String :=
  appendRawSources ([], []) detail.video_urls 0

/-- The fallback chain of `normalizeDetailVideoSources`, applied to the
accumulator left by the explicit pass. -/
def fallbackVideoSources (detail : ItemDetail) (acc : List SourceCandidate × List String) :
    List SourceCandidate × List String :=
  let uploadEnabled := detail.upload_enabled.getD true
  let acc :=
    if detail.aweme_id ≠ "" ∧ detail.local_path ≠ "" then
      appendSource acc "local_cache" "本地缓存"
        ("/client/douyin/local-stream?aweme_id=" ++ encodeURIComponent detail.aweme_id)
    else acc
  let acc :=
    if uploadEnabled then
      let acc := appendSource acc "nas_origin" "NAS(局域网)"
        (jsOrS detail.uploaded_origin_url detail.upload_origin_destination)
      appendSource acc "nas_proxy" "NAS(代理)"
        (jsOrS detail.uploaded_url detail.upload_destination)
    else acc
  appendSource acc "douyin" "抖音" detail.video_url

/-- Invariant of the `(sources, seen)` accumulator of
`normalizeDetailVideoSources`: `seen` is exactly the list of lower-cased
urls of `sources`, without duplicates. -/
def AccWF (acc : List SourceCandidate × List String) : Prop :=
  acc.2 = acc.1.map (fun s => jsToLower s.url) ∧ acc.2.Nodup

/-- `normalizeDetailVideoSources(detail)`. -/
def normalizeDetailVideoSources (detail : ItemDetail) : List SourceCandidate :=
  let acc := explicitVideoSources detail
  if acc.1.length = 0 then (fallbackVideoSources detail acc).1
  else acc.1

/-- `pickVideoSourceId(sources, detail, options)`: `currentSourceId` is
`state.player.sourceId`, `preferredSourceId` the persisted preference. -/
def pickVideoSourceId (sources : List SourceCandidate) (detail : ItemDetail)
    (forcedSourceId currentSourceId preferredSourceId : String) : String :=
  if sources.length = 0 then "" else
  let allowed := sources.map (fun s => s.id)
  let forced := jsTrim forcedSourceId
  if forced ≠ "" ∧ forced ∈ allowed then forced else
  let current := jsTrim currentSourceId
  if current ≠ "" ∧ current ∈ allowed then current else
  let preferred := jsTrim preferredSourceId
  if preferred ≠ "" ∧ preferred ∈ allowed then preferred else
  let backendDefault := jsTrim detail.default_video_source
  if backendDefault ≠ "" ∧ backendDefault ∈ allowed then backendDefault else
  ((sources.head?).map (fun s => s.id)).getD ""

def HLS_NETWORK_RETRY_LIMIT : Nat := 4
def HLS_MEDIA_RETRY_LIMIT : Nat := 2
def HLS_REBUILD_LIMIT : Nat := 2

/-- The module-scoped `hlsRecovery` counter object. -/
structure HlsRecoveryState where
  network : Nat := 0
  media : Nat := 0
  rebuild : Nat := 0
deriving Repr, DecidableEq

/-- The module-scoped `playbackHeal` object (the timer handle is tracked as
a flag). -/
structure HealState where
  timer : Bool := false
  attempts : Nat := 0
  lastAt : Nat := 0
deriving Repr, DecidableEq

/-- `resetPlaybackHeal()`. -/
def resetPlaybackHeal (_h : HealState) : HealState :=
  { timer := false, attempts := 0, lastAt := 0 }

/-- The live-stream resilience state: the recovery counters, the heal
bookkeeping and `state.player.error`. -/
structure LiveStreamState where
  recovery : HlsRecoveryState := {}
  heal : HealState := {}
  playerError : String := ""
deriving Repr, DecidableEq

/-- The `data.type` classification of a fatal hls.js fault. -/
inductive HlsFaultKind where
  | network
  | media
  | other
deriving Repr, DecidableEq

/-- The shared tail of `handleHlsError`: rebuild the pipeline while the
rebuild allowance lasts, otherwise surface the terminal error. -/
def hlsRebuildStep (st : LiveStreamState) : LiveStreamState :=
  if st.recovery.rebuild < HLS_REBUILD_LIMIT then
    { st with recovery := { st.recovery with rebuild := st.recovery.rebuild + 1 } }
  else
    { st with playerError := "直播流连接异常" }

/-- `handleHlsError(data, sourceUrl)` for a fatal fault (non-fatal faults
return immediately); the `startLoad` / `recoverMediaError` / destroy +
`scheduleLiveReattach` calls act on the external hls handle. -/
def handleHlsError (st : LiveStreamState) (kind : HlsFaultKind) : LiveStreamState :=
  match kind with
  | .network =>
    if st.recovery.network < HLS_NETWORK_RETRY_LIMIT then
      { st with recovery := { st.recovery with network := st.recovery.network + 1 } }
    else hlsRebuildStep st
  | .media =>
    if st.recovery.media < HLS_MEDIA_RETRY_LIMIT then
      { st with recovery := { st.recovery with media := st.recovery.media + 1 } }
    else hlsRebuildStep st
  | .other => hlsRebuildStep st

/-- `handlePlaybackRecovered()` — the `playing` / `canplay` handler.  It
resets the heal bookkeeping (and remembers LAN auth, outside this model);
it does not touch `hlsRecovery`. -/
def handlePlaybackRecovered (st : LiveStreamState) : LiveStreamState :=
  { st with heal := resetPlaybackHeal st.heal }

/-- The events driving the resilience state machine. -/
inductive HlsEvent where
  | fault (kind : HlsFaultKind)
  | success
deriving Repr, DecidableEq

/-- One event step of the resilience state machine. -/
def hlsStep (st : LiveStreamState) (e : HlsEvent) : LiveStreamState :=
  match e with
  | .fault kind => handleHlsError st kind
  | .success => handlePlaybackRecovered st

/-- A whole event run. -/
def hlsRun (st : LiveStreamState) (es : List HlsEvent) : LiveStreamState :=
  es.foldl hlsStep st

/-- The `state.player` fields touched by navigation, preparation and
teardown. -/
structure PlayerState where
  src : String := ""
  sources : List SourceCandidate := []
  sourceId : String := ""
  sourceLabel : String := ""
  sourceNonce : Nat := 0
  resumeTime : ℚ := 0
  pendingPlay : Bool := false
  suppressAutoplay : Bool := false
  replayReady : Bool := false
  notice : String := ""
  error : String := ""
  loading : Bool := false
  loadingHint : String := ""
  nextPreview : String := ""
  lanAuthRequired : Bool := false
deriving Repr, DecidableEq

/-- The playback element (`videoRef.value`): `currentTime` is `none` when
non-finite, `duration` is the `|| 0` coercion of the element duration. -/
structure VideoElem where
  currentTime : Option ℚ := none
  duration : ℚ := 0
deriving Repr, DecidableEq

/-- The session state touched by `selectItem` / `refreshFeedSilently`:
feed list, active index, player, caches, heal bookkeeping, the persisted
active identity, and a marker for the dispatched asynchronous source
resolution (`resolveLiveSource` / `resolveVideoSource` + `prefetchNext`). -/
structure AppState where
  items : List FeedItem := []
  total : Nat := 0
  page : Nat := 1
  activeIndex : Int := -1
  audioUnlocked : Bool := false
  mobileTitleExpanded : Bool := false
  player : PlayerState := {}
  cache : CacheState := {}
  heal : HealState := {}
  video : Option VideoElem := none
  activeIdentityLS : String := ""
  pendingResolve : Option Int := none
deriving Repr, DecidableEq

/-- `activeItem` (`state.items[state.activeIndex] || null`). -/
def activeItem (st : AppState) : Option FeedItem :=
  if st.activeIndex < 0 then none else st.items.get? st.activeIndex.toNat

/-- `unlockAudio()` (the media-element unmuting is external). -/
def unlockAudio (st : AppState) : AppState :=
  if st.audioUnlocked then st else { st with audioUnlocked := true }

/-- `cleanupPlayer()`: reset heal bookkeeping, clear the LAN-auth
requirement, drop the attachment (`state.player.src = ""`); destroying the
hls handle and unloading the element are external. -/
def cleanupPlayer (st : AppState) : AppState :=
  { st with heal := resetPlaybackHeal st.heal,
            player := { st.player with lanAuthRequired := false, src := "" } }

/-- `showDeletedNotice()`. -/
def showDeletedNotice (st : AppState) : AppState :=
  let st := { st with player :=
    { st.player with lanAuthRequired := false, notice := "当前作品已删除",
                     error := "", loading := false, nextPreview := "",
                     replayReady := false, suppressAutoplay := true } }
  cleanupPlayer st

/-- The cache effects of the persist-outgoing-position block at the start
of a real navigation in `selectItem` (the block mutates only the playback
caches). -/
def persistOutgoingCache (st : AppState) (now : Nat) : CacheState :=
  let currentItem := activeItem st
  if ¬ isPlayableItem currentItem then st.cache else
  let currentIdentity := getItemIdentity currentItem
  match st.video with
  | none => st.cache
  | some v =>
    if currentIdentity ≠ "" ∧ currentIdentity ∉ st.cache.completedSet ∧ v.currentTime.isSome then
      let lastTime := v.currentTime.getD 0
      let storedTime := getStoredPlaybackPosition st.cache.store currentIdentity
      let cachedTime := (mapFind st.cache.positions currentIdentity).getD 0
      let safeTime := max (max lastTime storedTime) cachedTime
      if 0 < safeTime then
        { st.cache with
            positions := mapSet st.cache.positions currentIdentity safeTime,
            persisted := mapSet st.cache.persisted currentIdentity safeTime,
            store := setStoredPlaybackPosition st.cache.store currentIdentity safeTime
              v.duration false now }
      else st.cache
    else st.cache

/-- The persist-outgoing-position block as a state update. -/
def persistOutgoing (st : AppState) (now : Nat) : AppState :=
  { st with cache := persistOutgoingCache st now }

/-- `preparePlaybackState(item)` as it acts on `state.player` together with
the caches: the unconditional field reset followed by the computed
suppress / replay / resume fields. -/
def preparePlayer (p : PlayerState) (cs : CacheState) (item : Option FeedItem) :
    PlayerState × CacheState :=
  let p := { p with lanAuthRequired := false, sources := [], sourceId := "",
                    sourceLabel := "", sourceNonce := 0, resumeTime := 0,
                    pendingPlay := false, suppressAutoplay := false,
                    replayReady := false, notice := "" }
  let (cs2, prep) := preparePlaybackState cs item
  ({ p with resumeTime := prep.resumeTime,
            suppressAutoplay := prep.suppressAutoplay,
            replayReady := prep.replayReady }, cs2)

/-- `selectItem(index, userAction, keepLoadingHint)`: the synchronous
session-state effects; the dispatched source resolution and prefetch are
recorded in `pendingResolve`.  The fire-and-forget
`syncActivePlaylistMembership(true)` acts on the remote membership cache,
outside this state. -/
def selectItem (st : AppState) (index : Int) (userAction : Bool)
    (keepLoadingHint : Bool) (now : Nat) : AppState :=
  if index < 0 ∨ (st.items.length : Int) ≤ index then st else
  let st := { st with heal := resetPlaybackHeal st.heal }
  if index = st.activeIndex then
    if userAction then unlockAudio st else st
  else
    let st := persistOutgoing st now
    let st := { st with activeIndex := index, mobileTitleExpanded := false,
                        player := { st.player with nextPreview := "", notice := "" } }
    let st := if keepLoadingHint then st
              else { st with player := { st.player with loadingHint := "" } }
    let st := if userAction then unlockAudio st else st
    match st.items.get? index.toNat with
    | none => st
    | some item =>
      let pc := preparePlayer st.player st.cache (some item)
      let st := { st with player := pc.1, cache := pc.2 }
      let identity := getItemIdentity (some item)
      let st := if identity ≠ "" then { st with activeIdentityLS := identity } else st
      { st with pendingResolve := some index }

/-- `playlistMembershipKey(playlistId, awemeId)`. -/
def playlistMembershipKey (playlistId awemeId : String) : String :=
  let p := jsTrim playlistId
  let w := jsTrim awemeId
  if p = "" ∨ w = "" then "" else p ++ ":" ++ w

/-- `writePlaylistMembership(playlistId, awemeId, exists)` on the
`state.playlist.membership` cache object. -/
def writePlaylistMembership (membership : List (String × Bool))
    (playlistId awemeId : String) (isMember : Bool) : List (String × Bool) :=
  let key := playlistMembershipKey playlistId awemeId
  if key = "" then membership else mapSet membership key isMember

/-- `items.findIndex((item) => getItemIdentity(item) === activeId)`. -/
def findIndexByIdentity (items : List FeedItem) (activeId : String) : Option Nat :=
  items.findIdx? (fun item => getItemIdentity (some item) = activeId)

/-- The reconciliation part of `refreshFeedSilently(cause)` once the page-1
fetch has returned `fetchedItems` / `fetchedTotal`. -/
def refreshFeedSilently (st : AppState) (cause : String) (fetchedItems : List FeedItem)
    (fetchedTotal : Nat) (now : Nat) : AppState :=
  let deleteCause := cause = "delete" ∨ cause = "cleanup"
  let activeId := jsOrS (getItemIdentity (activeItem st)) st.activeIdentityLS
  let st := { st with total := fetchedTotal, page := 1 }
  if fetchedItems.length = 0 then
    let st := { st with items := [], activeIndex := -1 }
    if deleteCause then showDeletedNotice st else st
  else
    let st := { st with items := fetchedItems }
    match (if activeId ≠ "" then findIndexByIdentity fetchedItems activeId else none) with
    | some index => { st with activeIndex := (index : Int) }
    | none =>
      if deleteCause then showDeletedNotice { st with activeIndex := -1 }
      else selectItem st 0 false false now

/-- Store well-formedness: a JS object has unique property keys. -/
def StoreWF (s : Store) : Prop := (s.map Prod.fst).Nodup

instance (s : Store) : Decidable (StoreWF s) :=
  inferInstanceAs (Decidable ((s.map Prod.fst).Nodup))

/-- A sequence of `updatePlaybackRecord(identity, payload)` calls
(each stamped with its `Date.now()`). -/
def applyOps (s : Store) (ops : List (String × UpdatePayload × Nat)) : Store :=
  ops.foldl (fun acc op => updatePlaybackRecord acc op.1 op.2.1 op.2.2) s

/-! ### Concrete fixtures used by example-level statements -/

/-- A video item with content id `a1`. -/
def sampleVideoItem : FeedItem := { type := "video", aweme_id := "a1" }

/-- A session state whose active item is `sampleVideoItem` at index 0 and
whose heal bookkeeping has pending attempts. -/
def sampleSameIndexState : AppState :=
  { items := [sampleVideoItem],
    activeIndex := 0,
    heal := { timer := false, attempts := 2, lastAt := 7 } }

/-- A completed record at position 10 with progress 100 (its duration was
never learned, as when the element reported none). -/
def sampleCompletedRecord : PlaybackRecord :=
  { time := some 10, duration := none, completed := true, progress := some 100, updated_at := 5 }

/-- Caches holding a completed record for `video:a1`. -/
def sampleCompletedCaches : CacheState :=
  { store := [("video:a1", sampleCompletedRecord)],
    positions := [("video:a1", 10)],
    completedSet := ["video:a1"],
    persisted := [("video:a1", 10)] }

/-- A record watched to 50 of 60 time units, not completed. -/
def samplePartialRecord : PlaybackRecord :=
  { time := some 50, duration := some 60, completed := false, progress := some 83, updated_at := 5 }

/-- Caches where the durable store holds position 50 for `video:a1` while
the in-memory position cache holds 2. -/
def sampleDivergedCaches : CacheState :=
  { store := [("video:a1", samplePartialRecord)],
    positions := [("video:a1", 2)] }

/-- The record left in the store after replaying `sampleCompletedCaches`
(the stored progress stays at 100). -/
def sampleReplayedRecord : PlaybackRecord :=
  { time := some 0, duration := none, completed := false, progress := some 100, updated_at := 6 }

/-- The caches left after replaying `sampleCompletedCaches`. -/
def sampleReplayedCaches : CacheState :=
  { store := [("video:a1", sampleReplayedRecord)],
    positions := [("video:a1", 0)],
    completedSet := [],
    persisted := [("video:a1", 0)] }

/-- A detail payload with no explicit backend source entries, a proxied NAS
url and an upstream url, exercising the fallback chain. -/
def sampleDetail : ItemDetail :=
  { uploaded_url := " http://nas/a.mp4 ", video_url := "http://dy/a.mp4" }

/-! ### Helper lemmas -/

theorem jsTrim_a : jsTrim "a" = "a" := by decide

theorem jsTrim_b : jsTrim "b" = "b" := by decide

theorem string_live_ne_note (a b : String) : ("live:" ++ a : String) ≠ "note:" ++ b := by
  intro h
  have h2 := congrArg String.data h
  simp [String.data_append] at h2

theorem string_live_ne_video (a b : String) : ("live:" ++ a : String) ≠ "video:" ++ b := by
  intro h
  have h2 := congrArg String.data h
  simp [String.data_append] at h2

theorem string_note_ne_video (a b : String) : ("note:" ++ a : String) ≠ "video:" ++ b := by
  intro h
  have h2 := congrArg String.data h
  simp [String.data_append] at h2

theorem string_prefixed_ne_empty (p a : String) (hp : p ≠ "") : p ++ a ≠ "" := by
  intro h
  have h2 := congrArg String.data h
  simp only [String.data_append] at h2
  rcases List.append_eq_nil.mp h2 with ⟨h3, _⟩
  exact hp (congrArg String.mk h3)

/-- The identity of a live-typed item with some live id. -/
theorem live_identity_shape (i : FeedItem) (ht : i.type = "live")
    (hne : getItemIdentity (some i) ≠ "") :
    getItemIdentity (some i) =
      "live:" ++ jsOrS i.sec_user_id (jsOrS i.web_rid i.room_id) := by
  simp only [getItemIdentity, ht, if_pos] at hne ⊢
  split at hne
  · exact absurd rfl hne
  · split
    · simp_all
    · rfl

/-- The identity of a non-live item with a content id. -/
theorem recorded_identity_shape (i : FeedItem) (ht : i.type ≠ "live")
    (hne : getItemIdentity (some i) ≠ "") :
    getItemIdentity (some i) =
      (if i.type = "note" then "note" else "video") ++ ":" ++ i.aweme_id := by
  simp only [getItemIdentity, if_neg ht] at hne ⊢
  by_cases ha : i.aweme_id = ""
  · simp [ha] at hne
  · simp [ha]

theorem applyTime_completed (r : PlaybackRecord) (p : UpdatePayload) :
    (applyTime r p).completed = r.completed := by
  unfold applyTime
  cases p.time <;> simp only [] <;> split <;> rfl

theorem applyTime_duration (r : PlaybackRecord) (p : UpdatePayload) :
    (applyTime r p).duration = r.duration := by
  unfold applyTime
  cases p.time <;> simp only [] <;> split <;> rfl

theorem applyTime_progress (r : PlaybackRecord) (p : UpdatePayload) :
    (applyTime r p).progress = r.progress := by
  unfold applyTime
  cases p.time <;> simp only [] <;> split <;> rfl

theorem applyDuration_completed (r : PlaybackRecord) (p : UpdatePayload) :
    (applyDuration r p).completed = r.completed := by
  unfold applyDuration
  cases p.duration <;> simp only [] <;> split <;> rfl

theorem applyDuration_time (r : PlaybackRecord) (p : UpdatePayload) :
    (applyDuration r p).time = r.time := by
  unfold applyDuration
  cases p.duration <;> simp only [] <;> split <;> rfl

theorem applyDuration_progress (r : PlaybackRecord) (p : UpdatePayload) :
    (applyDuration r p).progress = r.progress := by
  unfold applyDuration
  cases p.duration <;> simp only [] <;> split <;> rfl

theorem applyCompleted_time (r : PlaybackRecord) (p : UpdatePayload) :
    (applyCompleted r p).time = r.time := by
  unfold applyCompleted
  cases p.completed <;> rfl

theorem applyCompleted_duration (r : PlaybackRecord) (p : UpdatePayload) :
    (applyCompleted r p).duration = r.duration := by
  unfold applyCompleted
  cases p.completed <;> rfl

theorem applyCompleted_progress (r : PlaybackRecord) (p : UpdatePayload) :
    (applyCompleted r p).progress = r.progress := by
  unfold applyCompleted
  cases p.completed <;> rfl

theorem applyCompleted_completed_some (r : PlaybackRecord) (p : UpdatePayload) (c : Bool)
    (h : p.completed = some c) : (applyCompleted r p).completed = c := by
  unfold applyCompleted
  rw [h]

theorem applyCompleted_completed_none (r : PlaybackRecord) (p : UpdatePayload)
    (h : p.completed = none) : (applyCompleted r p).completed = r.completed := by
  unfold applyCompleted
  rw [h]

theorem recomputeProgress_completed (r : PlaybackRecord) (q : ℚ) :
    (recomputeProgress r q).completed = r.completed := by
  unfold recomputeProgress
  split <;> try rfl
  split <;> try rfl
  split <;> rfl

theorem recomputeProgress_time (r : PlaybackRecord) (q : ℚ) :
    (recomputeProgress r q).time = r.time := by
  unfold recomputeProgress
  split <;> try rfl
  split <;> try rfl
  split <;> rfl

theorem recomputeProgress_duration (r : PlaybackRecord) (q : ℚ) :
    (recomputeProgress r q).duration = r.duration := by
  unfold recomputeProgress
  split <;> try rfl
  split <;> try rfl
  split <;> rfl

theorem applyPayload_completed_some (r : PlaybackRecord) (p : UpdatePayload) (now : Nat)
    (c : Bool) (h : p.completed = some c) : (applyPayload r p now).completed = c := by
  unfold applyPayload
  simp only [recomputeProgress_completed, applyCompleted_completed_some _ _ _ h]

theorem applyPayload_completed_none (r : PlaybackRecord) (p : UpdatePayload) (now : Nat)
    (h : p.completed = none) : (applyPayload r p now).completed = r.completed := by
  unfold applyPayload
  simp only [recomputeProgress_completed, applyCompleted_completed_none _ _ h,
    applyDuration_completed, applyTime_completed]

theorem applyPayload_time_forced_zero (r : PlaybackRecord) (p : UpdatePayload) (now : Nat)
    (ht : p.time = some 0) (hf : p.force = true) : (applyPayload r p now).time = some 0 := by
  unfold applyPayload
  simp only [recomputeProgress_time, applyCompleted_time, applyDuration_time]
  unfold applyTime
  rw [ht]
  simp [hf]

/-- Without `force`, the stored `time` never decreases in one update. -/
theorem applyPayload_time_mono (r : PlaybackRecord) (p : UpdatePayload) (now : Nat)
    (hf : p.force = false) : r.time.getD 0 ≤ (applyPayload r p now).time.getD 0 := by
  unfold applyPayload
  simp only [recomputeProgress_time, applyCompleted_time, applyDuration_time]
  unfold applyTime
  cases ht : p.time with
  | none => exact le_refl _
  | some t =>
    simp only [hf]
    split
    · rename_i hcond
      rcases hcond with hc | hc | hc
      · exact absurd hc (by simp)
      · simp [hc]
      · simpa using hc
    · exact le_refl _

/-- The stored `duration` never decreases in one update. -/
theorem applyPayload_duration_mono (r : PlaybackRecord) (p : UpdatePayload) (now : Nat) :
    r.duration.getD 0 ≤ (applyPayload r p now).duration.getD 0 := by
  unfold applyPayload
  simp only [recomputeProgress_duration, applyCompleted_duration]
  unfold applyDuration
  cases hd : p.duration with
  | none => simp [applyTime_duration]
  | some d =>
    simp only []
    split
    · simp [applyTime_duration]
    · simp [applyTime_duration]

theorem recomputeProgress_getD_le_100 (r : PlaybackRecord) (q : ℚ)
    (hq : r.progress.getD 0 = q) (h : q ≤ 100) :
    (recomputeProgress r q).progress.getD 0 ≤ 100 := by
  unfold recomputeProgress
  split
  · simp
  · split
    · simp only [Option.getD_some]
      exact max_le h (min_le_left _ _)
    · split
      · simpa using h
      · rw [hq]; exact h

theorem recomputeProgress_getD_mono (r : PlaybackRecord) (q : ℚ)
    (hq : r.progress.getD 0 = q) (h : q ≤ 100) :
    q ≤ (recomputeProgress r q).progress.getD 0 := by
  unfold recomputeProgress
  split
  · simpa using h
  · split
    · simp only [Option.getD_some]
      exact le_max_left _ _
    · split
      · simp
      · exact le_of_eq hq.symm

theorem recomputeProgress_getD_nonneg (r : PlaybackRecord) (q : ℚ)
    (hq : r.progress.getD 0 = q) (h : 0 ≤ q) :
    0 ≤ (recomputeProgress r q).progress.getD 0 := by
  unfold recomputeProgress
  split
  · norm_num
  · split
    · simp only [Option.getD_some]
      exact le_trans h (le_max_left _ _)
    · split
      · simpa using h
      · rw [hq]; exact h

theorem applyPayload_progress (r : PlaybackRecord) (p : UpdatePayload) (now : Nat) :
    (applyPayload r p now).progress =
      (recomputeProgress (applyCompleted (applyDuration (applyTime r p) p) p)
        (r.progress.getD 0)).progress := rfl

theorem merged_progress (r : PlaybackRecord) (p : UpdatePayload) :
    (applyCompleted (applyDuration (applyTime r p) p) p).progress = r.progress := by
  rw [applyCompleted_progress, applyDuration_progress, applyTime_progress]

/-- One update keeps the derived progress at most 100. -/
theorem applyPayload_progress_le_100 (r : PlaybackRecord) (p : UpdatePayload) (now : Nat)
    (h : r.progress.getD 0 ≤ 100) : (applyPayload r p now).progress.getD 0 ≤ 100 := by
  rw [applyPayload_progress]
  exact recomputeProgress_getD_le_100 _ _ (by rw [merged_progress]) h

/-- One update never lowers the derived progress (within the 0–100 range). -/
theorem applyPayload_progress_mono (r : PlaybackRecord) (p : UpdatePayload) (now : Nat)
    (h : r.progress.getD 0 ≤ 100) :
    r.progress.getD 0 ≤ (applyPayload r p now).progress.getD 0 := by
  rw [applyPayload_progress]
  exact recomputeProgress_getD_mono _ _ (by rw [merged_progress]) h

/-- One update keeps the derived progress non-negative. -/
theorem applyPayload_progress_nonneg (r : PlaybackRecord) (p : UpdatePayload) (now : Nat)
    (h : 0 ≤ r.progress.getD 0) : 0 ≤ (applyPayload r p now).progress.getD 0 := by
  rw [applyPayload_progress]
  exact recomputeProgress_getD_nonneg _ _ (by rw [merged_progress]) h

theorem storeGet_storeSet_self (s : Store) (identity : String) (r : PlaybackRecord) :
    storeGet (storeSet s identity r) identity = some r := by
  induction s with
  | nil => simp [storeSet, storeGet]
  | cons e rest ih =>
    by_cases h : e.1 = identity
    · simp [storeSet, storeGet, h]
    · simp [storeSet, storeGet, h, ih]

theorem storeSet_length_le (s : Store) (identity : String) (r : PlaybackRecord) :
    (storeSet s identity r).length ≤ s.length + 1 := by
  induction s with
  | nil => simp [storeSet]
  | cons e rest ih =>
    by_cases h : e.1 = identity
    · simp [storeSet, h]
    · simp only [storeSet, if_neg h, List.length_cons]
      omega

theorem storeSet_length_of_found (s : Store) (identity : String) (r r0 : PlaybackRecord)
    (h : storeGet s identity = some r0) : (storeSet s identity r).length = s.length := by
  induction s with
  | nil => simp [storeGet] at h
  | cons e rest ih =>
    by_cases he : e.1 = identity
    · simp [storeSet, he]
    · simp only [storeGet, if_neg he] at h
      simp only [storeSet, if_neg he, List.length_cons, ih h]

theorem prunePlaybackStore_of_le (s : Store) (h : s.length ≤ PLAYBACK_STORE_LIMIT) :
    prunePlaybackStore s = s := by
  unfold prunePlaybackStore
  rw [if_pos h]

/-- A completion read is `false` when the identity is neither in the
in-memory completed set nor completed in the durable store. -/
theorem isPlaybackCompleted_false_intro (cs : CacheState) (item : Option FeedItem)
    (hid : getItemIdentity item ≠ "") (hm : getItemIdentity item ∉ cs.completedSet)
    (hrec : ((getStoredPlaybackRecord cs.store (getItemIdentity item)).map
      (fun r => r.completed)).getD false = false) :
    isPlaybackCompleted cs item = false := by
  unfold isPlaybackCompleted
  by_cases hpi : isPlayableItem item
  · simp only [hpi, not_true, if_false]
    simp [hid, hm, hrec]
  · simp [hpi]

theorem setAdd_mem_self (s : List String) (k : String) : k ∈ setAdd s k := by
  unfold setAdd
  split
  · assumption
  · simp

/-- The derived progress projection never reads below the stored progress
of a non-completed record (within the 0–100 range). -/
theorem getPlaybackPercent_ge_progress (cs : CacheState) (item : Option FeedItem)
    (r : PlaybackRecord)
    (hp : isPlayableItem item = true)
    (hid : getItemIdentity item ≠ "")
    (hr : storeGet cs.store (getItemIdentity item) = some r)
    (hc : r.completed = false)
    (hnm : getItemIdentity item ∉ cs.completedSet)
    (h0 : 0 ≤ r.progress.getD 0) (h100 : r.progress.getD 0 ≤ 100) :
    r.progress.getD 0 ≤ getPlaybackPercent cs item := by
  have hrec : getStoredPlaybackRecord cs.store (getItemIdentity item) = some r := by
    unfold getStoredPlaybackRecord
    rw [if_neg hid, hr]
  unfold getPlaybackPercent
  simp only [hp, hrec, Bool.not_true, Bool.false_eq_true, not_true, if_false, Option.map_some,
    Option.getD_some, Option.some_bind, hc, or_iff_right_iff_imp]
  rw [if_neg (show ¬ ((Option.map (fun r => r.completed) (some r)).getD false = true ∨
      getItemIdentity item ∈ cs.completedSet) from by simp [hc, hnm])]
  cases hpr : r.progress with
  | some sp =>
    simp only [hpr, Option.getD_some]
    by_cases hdur : jsOr (r.duration.getD 0) (itemDuration item) = 0
    · rw [if_pos hdur]
    · rw [if_neg hdur]
      refine le_min ?_ (le_max_left _ _)
      simpa [hpr] using h100
  | none =>
    simp only [hpr, Option.getD_none]
    by_cases hdur : jsOr (r.duration.getD 0) (itemDuration item) = 0
    · rw [if_pos hdur]
    · rw [if_neg hdur]
      exact_mod_cast Int.floor_nonneg.mpr (le_min (by norm_num) (le_max_left _ _))

/-- The two store writes performed by a replay (`completed := false`, then
a forced position reset to 0) on a store strictly below capacity: the
record survives with `completed = false`, `time = 0`, and a progress at
least the previous one. -/
theorem replay_store_trace (s : Store) (identity : String) (d : ℚ) (now now2 : Nat)
    (hid : identity ≠ "") (hlen : s.length < PLAYBACK_STORE_LIMIT)
    (h0 : 0 ≤ ((storeGet s identity).getD emptyRecord).progress.getD 0)
    (h100 : ((storeGet s identity).getD emptyRecord).progress.getD 0 ≤ 100) :
    ∃ r2 : PlaybackRecord,
      storeGet (setStoredPlaybackPosition (setStoredPlaybackCompleted s identity false now)
        identity 0 d true now2) identity = some r2 ∧
      r2.completed = false ∧ r2.time = some 0 ∧
      ((storeGet s identity).getD emptyRecord).progress.getD 0 ≤ r2.progress.getD 0 ∧
      0 ≤ r2.progress.getD 0 ∧ r2.progress.getD 0 ≤ 100 := by
  have hr1 : setStoredPlaybackCompleted s identity false now =
      storeSet s identity (applyPayload ((storeGet s identity).getD emptyRecord)
        { completed := some false } now) := by
    unfold setStoredPlaybackCompleted updatePlaybackRecord
    rw [if_neg hid]
    exact prunePlaybackStore_of_le _ (le_trans (storeSet_length_le _ _ _) (by omega))
  set r0 : PlaybackRecord := (storeGet s identity).getD emptyRecord with hr0
  set r1 : PlaybackRecord := applyPayload r0 { completed := some false } now with hr1d
  have hg1 : storeGet (storeSet s identity r1) identity = some r1 :=
    storeGet_storeSet_self _ _ _
  set r2 : PlaybackRecord :=
    applyPayload r1 { time := some 0, duration := some d, force := true } now2 with hr2d
  have hlen1 : (storeSet s identity r1).length ≤ PLAYBACK_STORE_LIMIT :=
    le_trans (storeSet_length_le _ _ _) (by omega)
  have hr2 : setStoredPlaybackPosition (storeSet s identity r1) identity 0 d true now2 =
      storeSet (storeSet s identity r1) identity r2 := by
    unfold setStoredPlaybackPosition updatePlaybackRecord
    rw [if_neg hid, hg1]
    exact prunePlaybackStore_of_le _
      (le_trans (le_of_eq (storeSet_length_of_found _ _ _ _ hg1)) hlen1)
  have hprog1 : r1.progress.getD 0 ≤ 100 := applyPayload_progress_le_100 _ _ _ h100
  refine ⟨r2, ?_, ?_, ?_, ?_, ?_, ?_⟩
  · rw [hr1, hr2]
    exact storeGet_storeSet_self _ _ _
  · rw [hr2d]
    rw [applyPayload_completed_none _ _ _ rfl, hr1d, applyPayload_completed_some _ _ _ false rfl]
  · rw [hr2d]
    exact applyPayload_time_forced_zero _ _ _ rfl rfl
  · exact le_trans (applyPayload_progress_mono _ _ _ h100)
      (applyPayload_progress_mono _ _ _ hprog1)
  · exact applyPayload_progress_nonneg _ _ _
      (applyPayload_progress_nonneg _ _ _ h0)
  · exact applyPayload_progress_le_100 _ _ _ hprog1

theorem applyPayload_time_eq (r : PlaybackRecord) (p : UpdatePayload) (now : Nat) :
    (applyPayload r p now).time = (applyCompleted (applyDuration (applyTime r p) p) p).time := by
  rw [show (applyPayload r p now).time =
    (recomputeProgress (applyCompleted (applyDuration (applyTime r p) p) p)
      (r.progress.getD 0)).time from rfl, recomputeProgress_time]

theorem applyPayload_duration_eq (r : PlaybackRecord) (p : UpdatePayload) (now : Nat) :
    (applyPayload r p now).duration =
      (applyCompleted (applyDuration (applyTime r p) p) p).duration := by
  rw [show (applyPayload r p now).duration =
    (recomputeProgress (applyCompleted (applyDuration (applyTime r p) p) p)
      (r.progress.getD 0)).duration from rfl, recomputeProgress_duration]

theorem applyPayload_completed_eq (r : PlaybackRecord) (p : UpdatePayload) (now : Nat) :
    (applyPayload r p now).completed =
      (applyCompleted (applyDuration (applyTime r p) p) p).completed := by
  rw [show (applyPayload r p now).completed =
    (recomputeProgress (applyCompleted (applyDuration (applyTime r p) p) p)
      (r.progress.getD 0)).completed from rfl, recomputeProgress_completed]

/-- `max p (min 100 f) = min 100 (max p f)` for `p ≤ 100`: the code's
clamp-then-max equals the spec's max-then-clamp. -/
theorem max_min_comm_100 (p f : ℚ) (hp : p ≤ 100) :
    max p (min 100 f) = min 100 (max p f) := by
  rcases le_total 100 f with h | h <;> rcases le_total f p with h2 | h2 <;>
    simp [max_def, min_def] <;> split_ifs <;> linarith

theorem foldl_applyPayload_time_mono (ps : List (UpdatePayload × Nat)) :
    ∀ r : PlaybackRecord, (∀ q ∈ ps, q.1.force = false) →
    r.time.getD 0 ≤ (ps.foldl (fun acc q => applyPayload acc q.1 q.2) r).time.getD 0 := by
  induction ps with
  | nil => intro r _; exact le_refl _
  | cons q rest ih =>
    intro r hf
    refine le_trans (applyPayload_time_mono r q.1 q.2 (hf q (by simp))) ?_
    exact ih _ (fun q2 hq2 => hf q2 (by simp [hq2]))

theorem foldl_applyPayload_duration_mono (ps : List (UpdatePayload × Nat)) :
    ∀ r : PlaybackRecord,
    r.duration.getD 0 ≤ (ps.foldl (fun acc q => applyPayload acc q.1 q.2) r).duration.getD 0 := by
  induction ps with
  | nil => intro r; exact le_refl _
  | cons q rest ih =>
    intro r
    exact le_trans (applyPayload_duration_mono r q.1 q.2) (ih _)

/-- `persistOutgoing` touches only the caches. -/
theorem persistOutgoing_cache_only (st : AppState) (now : Nat) :
    persistOutgoing st now = { st with cache := persistOutgoingCache st now } := rfl

/-- `unlockAudio` touches only the audio flag. -/
theorem unlockAudio_shape (st : AppState) :
    unlockAudio st = { st with audioUnlocked := st.audioUnlocked || true } := by
  unfold unlockAudio
  cases st
  split <;> simp_all

theorem count_filter_of_pos {α : Type} [DecidableEq α] (a : α) (p : α → Bool) (l : List α)
    (hp : p a = true) : (l.filter p).count a = l.count a := by
  induction l with
  | nil => rfl
  | cons b t ih =>
    by_cases hb : p b
    · simp [List.filter_cons, hb, List.count_cons, ih]
    · by_cases hab : b = a
      · subst hab; exact absurd hp hb
      · simp [List.filter_cons, hb, List.count_cons, ih, hab]

theorem map_fst_filter_mem (s : Store) (v : List String) :
    (s.filter (fun e => decide (e.1 ∈ v))).map Prod.fst =
      (s.map Prod.fst).filter (fun x => decide (x ∈ v)) := by
  induction s with
  | nil => rfl
  | cons b t ih => by_cases hb : b.1 ∈ v <;> simp [List.filter_cons, hb, ih]

theorem filter_not_length {α : Type} (l : List α) (p : α → Bool) :
    (l.filter (fun a => ! p a)).length = l.length - (l.filter p).length := by
  induction l with
  | nil => rfl
  | cons b t ih =>
    have hle := List.length_filter_le p t
    by_cases hb : p b <;> simp [List.filter_cons, hb, ih] <;> omega

theorem length_filter_mem_of_nodup (keys v : List String) (hk : keys.Nodup) (hv : v.Nodup)
    (hsub : ∀ x ∈ v, x ∈ keys) :
    (keys.filter (fun x => decide (x ∈ v))).length = v.length := by
  have hperm : List.Perm (keys.filter (fun x => decide (x ∈ v))) v := by
    refine List.perm_iff_count.mpr ?_
    intro x
    by_cases hx : x ∈ v
    · rw [count_filter_of_pos x _ keys (by simpa using hx),
        List.count_eq_one_of_mem hk (hsub x hx), List.count_eq_one_of_mem hv hx]
    · rw [List.count_eq_zero.mpr hx, List.count_eq_zero.mpr ?_]
      intro hmem
      exact hx (by simpa using (List.mem_filter.mp hmem).2)
  exact hperm.length_eq

theorem store_eq_of_fst_eq (l : Store) (h : (l.map Prod.fst).Nodup)
    (a b : String × PlaybackRecord) (ha : a ∈ l) (hb : b ∈ l) (heq : a.1 = b.1) : a = b := by
  induction l with
  | nil => cases ha
  | cons x t ih =>
    simp only [List.map_cons, List.nodup_cons] at h
    obtain ⟨hx, ht⟩ := h
    rw [List.mem_cons] at ha hb
    rcases ha with rfl | ha <;> rcases hb with rfl | hb
    · rfl
    · exfalso
      refine hx ?_
      rw [heq]
      exact List.mem_map_of_mem Prod.fst hb
    · exfalso
      refine hx ?_
      rw [← heq]
      exact List.mem_map_of_mem Prod.fst ha
    · exact ih ht ha hb

theorem storeSet_keys (s : Store) (k : String) (r : PlaybackRecord) :
    (storeSet s k r).map Prod.fst =
      (if k ∈ s.map Prod.fst then s.map Prod.fst else s.map Prod.fst ++ [k]) := by
  induction s with
  | nil => simp [storeSet]
  | cons e t ih =>
    by_cases he : e.1 = k
    · simp [storeSet, he]
    · simp only [storeSet, if_neg he, List.map_cons, ih]
      by_cases hm : k ∈ t.map Prod.fst
      · simp [hm, Ne.symm he]
      · simp [hm, Ne.symm he]

theorem StoreWF_storeSet (s : Store) (k : String) (r : PlaybackRecord) (h : StoreWF s) :
    StoreWF (storeSet s k r) := by
  unfold StoreWF at *
  rw [storeSet_keys]
  by_cases hm : k ∈ s.map Prod.fst
  · rwa [if_pos hm]
  · rw [if_neg hm]
    simp [List.nodup_append, h, hm]

theorem prunePlaybackStore_sublist (s : Store) : (prunePlaybackStore s).Sublist s := by
  unfold prunePlaybackStore
  split
  · exact List.Sublist.refl s
  · exact List.filter_sublist s

theorem StoreWF_prune (s : Store) (h : StoreWF s) : StoreWF (prunePlaybackStore s) :=
  List.Nodup.sublist ((prunePlaybackStore_sublist s).map Prod.fst) h

theorem prunePlaybackStore_length (s : Store) (h : StoreWF s) :
    (prunePlaybackStore s).length = min s.length PLAYBACK_STORE_LIMIT := by
  by_cases hle : s.length ≤ PLAYBACK_STORE_LIMIT
  · rw [prunePlaybackStore_of_le s hle]
    exact (Nat.min_eq_left hle).symm
  · have hrun : prunePlaybackStore s =
        s.filter (fun e => decide (e.1 ∉ ((List.insertionSort pruneRel s).take
          (s.length - PLAYBACK_STORE_LIMIT)).map Prod.fst)) := by
      unfold prunePlaybackStore
      rw [if_neg hle]
    rw [hrun]
    set victims := ((List.insertionSort pruneRel s).take
      (s.length - PLAYBACK_STORE_LIMIT)).map Prod.fst with hvic
    have hperm : List.Perm (List.insertionSort pruneRel s) s :=
      List.perm_insertionSort pruneRel s
    have hkeysperm : List.Perm ((List.insertionSort pruneRel s).map Prod.fst)
        (s.map Prod.fst) := hperm.map Prod.fst
    have hsorted_nodup : ((List.insertionSort pruneRel s).map Prod.fst).Nodup :=
      hkeysperm.nodup_iff.mpr h
    have hv_nodup : victims.Nodup := by
      rw [hvic, List.map_take]
      exact List.Nodup.sublist (List.take_sublist _ _) hsorted_nodup
    have hv_sub : ∀ x ∈ victims, x ∈ s.map Prod.fst := by
      intro x hx
      rw [hvic, List.map_take] at hx
      exact hkeysperm.mem_iff.mp (List.take_subset _ _ hx)
    have hv_len : victims.length = s.length - PLAYBACK_STORE_LIMIT := by
      rw [hvic, List.length_map, List.length_take, List.length_insertionSort]
      omega
    have hnotform : (fun e : String × PlaybackRecord => decide (e.1 ∉ victims)) =
        (fun e : String × PlaybackRecord => ! decide (e.1 ∈ victims)) := by
      funext e
      simp
    rw [hnotform, filter_not_length]
    have hmemlen : (s.filter (fun e => decide (e.1 ∈ victims))).length = victims.length := by
      have hmap : ((s.filter (fun e => decide (e.1 ∈ victims))).map Prod.fst).length =
          (((s.map Prod.fst)).filter (fun x => decide (x ∈ victims))).length := by
        rw [map_fst_filter_mem]
      rw [← List.length_map _ Prod.fst, hmap,
        length_filter_mem_of_nodup (s.map Prod.fst) victims h hv_nodup hv_sub]
    rw [hmemlen, hv_len]
    omega

theorem prunePlaybackStore_evicts_oldest (s : Store) (h : StoreWF s) :
    ∀ e ∈ s, e ∉ prunePlaybackStore s →
    ∀ k ∈ prunePlaybackStore s, e.2.updated_at ≤ k.2.updated_at := by
  intro e he hrem k hk
  by_cases hle : s.length ≤ PLAYBACK_STORE_LIMIT
  · rw [prunePlaybackStore_of_le s hle] at hrem
    exact absurd he hrem
  · have hrun : prunePlaybackStore s =
        s.filter (fun e => decide (e.1 ∉ ((List.insertionSort pruneRel s).take
          (s.length - PLAYBACK_STORE_LIMIT)).map Prod.fst)) := by
      unfold prunePlaybackStore
      rw [if_neg hle]
    rw [hrun] at hrem hk
    set rc := s.length - PLAYBACK_STORE_LIMIT with hrc
    set sorted := List.insertionSort pruneRel s with hsrt
    set victims := (sorted.take rc).map Prod.fst with hvic
    have hperm : List.Perm sorted s := List.perm_insertionSort pruneRel s
    have hsorted_nodup : (sorted.map Prod.fst).Nodup :=
      (hperm.map Prod.fst).nodup_iff.mpr h
    have he1 : e.1 ∈ victims := by
      by_contra hno
      exact hrem (List.mem_filter.mpr ⟨he, by simpa using hno⟩)
    have hkmem := List.mem_filter.mp hk
    have hk1 : k.1 ∉ victims := by simpa using hkmem.2
    have hesorted : e ∈ sorted := hperm.mem_iff.mpr he
    have hksorted : k ∈ sorted := hperm.mem_iff.mpr hkmem.1
    have hetake : e ∈ sorted.take rc := by
      obtain ⟨e2, he2, heq⟩ := List.mem_map.mp he1
      have : e2 = e :=
        store_eq_of_fst_eq sorted hsorted_nodup e2 e (List.take_subset _ _ he2) hesorted heq
      rwa [this] at he2
    have hkdrop : k ∈ sorted.drop rc := by
      have hsplitmem : k ∈ sorted.take rc ++ sorted.drop rc := by
        rw [List.take_append_drop rc sorted]
        exact hksorted
      rcases List.mem_append.mp hsplitmem with hx | hx
      · exact absurd (List.mem_map_of_mem Prod.fst hx) hk1
      · exact hx
    have hsorted2 : List.Pairwise pruneRel sorted :=
      List.sorted_insertionSort pruneRel s
    have hsplit : List.Pairwise pruneRel (sorted.take rc ++ sorted.drop rc) := by
      rwa [List.take_append_drop rc sorted]
    exact (List.pairwise_append.mp hsplit).2.2 e hetake k hkdrop

/-- One upsert keeps the store within capacity and well-formed. -/
theorem updatePlaybackRecord_invariant (s : Store) (id : String) (p : UpdatePayload) (now : Nat)
    (h : StoreWF s) (hlen : s.length ≤ PLAYBACK_STORE_LIMIT) :
    StoreWF (updatePlaybackRecord s id p now) ∧
    (updatePlaybackRecord s id p now).length ≤ PLAYBACK_STORE_LIMIT := by
  unfold updatePlaybackRecord
  by_cases hid : id = ""
  · rw [if_pos hid]
    exact ⟨h, hlen⟩
  · rw [if_neg hid]
    have hwf2 : StoreWF (storeSet s id
        (applyPayload ((storeGet s id).getD emptyRecord) p now)) :=
      StoreWF_storeSet s id _ h
    refine ⟨StoreWF_prune _ hwf2, ?_⟩
    rw [prunePlaybackStore_length _ hwf2]
    exact Nat.min_le_right _ _

theorem applyOps_invariant (ops : List (String × UpdatePayload × Nat)) :
    ∀ s : Store, StoreWF s → s.length ≤ PLAYBACK_STORE_LIMIT →
    StoreWF (applyOps s ops) ∧ (applyOps s ops).length ≤ PLAYBACK_STORE_LIMIT := by
  induction ops with
  | nil => intro s h hlen; exact ⟨h, hlen⟩
  | cons op rest ih =>
    intro s h hlen
    have hstep := updatePlaybackRecord_invariant s op.1 op.2.1 op.2.2 h hlen
    exact ih _ hstep.1 hstep.2

/-- `appendSource` either skips or appends exactly one candidate with the
given id and the trimmed, non-empty url. -/
theorem appendSource_shape (acc : List SourceCandidate × List String) (i l u : String) :
    appendSource acc i l u = acc ∨
    (i ≠ "" ∧ jsTrim u ≠ "" ∧ jsToLower (jsTrim u) ∉ acc.2 ∧
      appendSource acc i l u =
        (acc.1 ++ [{ id := i, label := jsOrS l i, url := jsTrim u }],
         acc.2 ++ [jsToLower (jsTrim u)])) := by
  simp only [appendSource]
  split
  · exact Or.inl rfl
  · rename_i hcond
    push_neg at hcond
    split
    · exact Or.inl rfl
    · rename_i hdk
      exact Or.inr ⟨hcond.1, hcond.2, hdk, rfl⟩

theorem appendSource_wf (acc : List SourceCandidate × List String) (i l u : String)
    (h : AccWF acc) : AccWF (appendSource acc i l u) := by
  rcases appendSource_shape acc i l u with heq | ⟨_, _, hseen, heq⟩
  · rwa [heq]
  · rw [heq]
    refine ⟨?_, ?_⟩
    · simp [h.1]
    · simp [List.nodup_append, h.2, hseen]

theorem appendRawSources_wf (raws : List RawVideoSource) :
    ∀ (acc : List SourceCandidate × List String) (index : Nat), AccWF acc →
    AccWF (appendRawSources acc raws index) := by
  induction raws with
  | nil => intro acc index h; exact h
  | cons item rest ih =>
    intro acc index h
    exact ih _ _ (appendSource_wf _ _ _ _ h)

theorem fallbackVideoSources_wf (detail : ItemDetail) (acc : List SourceCandidate × List String)
    (h : AccWF acc) : AccWF (fallbackVideoSources detail acc) := by
  unfold fallbackVideoSources
  refine appendSource_wf _ _ _ _ ?_
  split <;> split <;>
    first
      | exact h
      | exact appendSource_wf _ _ _ _ h
      | exact appendSource_wf _ _ _ _ (appendSource_wf _ _ _ _ h)
      | exact appendSource_wf _ _ _ _ (appendSource_wf _ _ _ _ (appendSource_wf _ _ _ _ h))

theorem explicitVideoSources_wf (detail : ItemDetail) : AccWF (explicitVideoSources detail) :=
  appendRawSources_wf detail.video_urls ([], []) 0 ⟨rfl, List.nodup_nil⟩

/-- An accumulator with no sources has an empty seen set. -/
theorem accWF_empty_seen (acc : List SourceCandidate × List String) (h : AccWF acc)
    (h1 : acc.1 = []) : acc = ([], []) := by
  have h2 := h.1
  rw [h1] at h2
  simp at h2
  rcases acc with ⟨a, b⟩
  simp_all

/-- Candidate membership inversion for one `appendSource` step. -/
theorem appendSource_mem (acc : List SourceCandidate × List String) (i l u : String)
    (c : SourceCandidate) (hc : c ∈ (appendSource acc i l u).1) :
    c ∈ acc.1 ∨ (c.id = i ∧ c.url = jsTrim u ∧ jsTrim u ≠ "") := by
  rcases appendSource_shape acc i l u with heq | ⟨_, hu, _, heq⟩
  · rw [heq] at hc
    exact Or.inl hc
  · rw [heq] at hc
    simp only [List.mem_append, List.mem_singleton] at hc
    rcases hc with hc | hc
    · exact Or.inl hc
    · subst hc
      exact Or.inr ⟨rfl, rfl, hu⟩

/-- Per-step sublist bound for the ids produced by `appendSource`. -/
theorem appendSource_map_id_sublist (acc : List SourceCandidate × List String) (i l u : String) :
    ((appendSource acc i l u).1.map (fun s => s.id)).Sublist
      (acc.1.map (fun s => s.id) ++ [i]) := by
  rcases appendSource_shape acc i l u with heq | ⟨_, _, _, heq⟩
  · rw [heq]
    exact List.sublist_append_left _ _
  · rw [heq]
    simp

/-- Inversion of the fallback chain: each produced candidate comes from one
of the four fixed steps and its underlying source field is non-empty. -/
theorem fallbackVideoSources_mem (detail : ItemDetail) (c : SourceCandidate)
    (hc : c ∈ (fallbackVideoSources detail ([], [])).1) :
    (c.id = "local_cache" ∧ detail.aweme_id ≠ "" ∧ detail.local_path ≠ "") ∨
    (c.id = "nas_origin" ∧ detail.upload_enabled.getD true = true ∧
      c.url = jsTrim (jsOrS detail.uploaded_origin_url detail.upload_origin_destination) ∧
      c.url ≠ "") ∨
    (c.id = "nas_proxy" ∧ detail.upload_enabled.getD true = true ∧
      c.url = jsTrim (jsOrS detail.uploaded_url detail.upload_destination) ∧ c.url ≠ "") ∨
    (c.id = "douyin" ∧ c.url = jsTrim detail.video_url ∧ c.url ≠ "") := by
  simp only [fallbackVideoSources] at hc
  rcases appendSource_mem _ _ _ _ _ hc with hc | ⟨hid, hurl, hne⟩
  · split at hc
    · rename_i hup
      rcases appendSource_mem _ _ _ _ _ hc with hc | ⟨hid, hurl, hne⟩
      · rcases appendSource_mem _ _ _ _ _ hc with hc | ⟨hid, hurl, hne⟩
        · split at hc
          · rename_i hloc
            rcases appendSource_mem _ _ _ _ _ hc with hc | ⟨hid, _, _⟩
            · simp at hc
            · exact Or.inl ⟨hid, hloc.1, hloc.2⟩
          · simp at hc
        · exact Or.inr (Or.inl ⟨hid, hup, hurl, hurl ▸ hne⟩)
      · exact Or.inr (Or.inr (Or.inl ⟨hid, hup, hurl, hurl ▸ hne⟩))
    · split at hc
      · rename_i hloc
        rcases appendSource_mem _ _ _ _ _ hc with hc | ⟨hid, _, _⟩
        · simp at hc
        · exact Or.inl ⟨hid, hloc.1, hloc.2⟩
      · simp at hc
  · exact Or.inr (Or.inr (Or.inr ⟨hid, hurl, hurl ▸ hne⟩))

/-- The local-cache step contributes at most the id `local_cache`. -/
theorem fallback_local_ids (detail : ItemDetail) :
    (((if detail.aweme_id ≠ "" ∧ detail.local_path ≠ "" then
        appendSource (([], []) : List SourceCandidate × List String) "local_cache" "本地缓存"
          ("/client/douyin/local-stream?aweme_id=" ++ encodeURIComponent detail.aweme_id)
      else ([], []))).1.map (fun s => s.id)).Sublist ["local_cache"] := by
  split
  · exact List.Sublist.trans (appendSource_map_id_sublist _ _ _ _) (by simp)
  · simp

/-- The ids of the fallback candidates appear in the fixed priority order
`local_cache`, `nas_origin`, `nas_proxy`, `douyin` (as a sublist). -/
theorem fallbackVideoSources_ids (detail : ItemDetail) :
    ((fallbackVideoSources detail ([], [])).1.map (fun s => s.id)).Sublist
      ["local_cache", "nas_origin", "nas_proxy", "douyin"] := by
  simp only [fallbackVideoSources]
  refine List.Sublist.trans (appendSource_map_id_sublist _ _ _ _) ?_
  show (_ ++ ["douyin"]).Sublist (["local_cache", "nas_origin", "nas_proxy"] ++ ["douyin"])
  refine List.Sublist.append ?_ (List.Sublist.refl _)
  split
  · refine List.Sublist.trans (appendSource_map_id_sublist _ _ _ _) ?_
    show (_ ++ ["nas_proxy"]).Sublist (["local_cache", "nas_origin"] ++ ["nas_proxy"])
    refine List.Sublist.append ?_ (List.Sublist.refl _)
    refine List.Sublist.trans (appendSource_map_id_sublist _ _ _ _) ?_
    show (_ ++ ["nas_origin"]).Sublist (["local_cache"] ++ ["nas_origin"])
    refine List.Sublist.append ?_ (List.Sublist.refl _)
    exact fallback_local_ids detail
  · refine List.Sublist.trans (fallback_local_ids detail) ?_
    exact List.sublist_append_left _ _

/-- The normalized list has pairwise-distinct lower-cased urls. -/
theorem normalizeDetailVideoSources_nodup (detail : ItemDetail) :
    ((normalizeDetailVideoSources detail).map (fun s => jsToLower s.url)).Nodup := by
  have hex := explicitVideoSources_wf detail
  simp only [normalizeDetailVideoSources]
  split
  · have h := fallbackVideoSources_wf detail _ hex
    rw [← h.1]
    exact h.2
  · rw [← hex.1]
    exact hex.2

/-! ### Claim theorems -/

/-- C1 counterexample: on a completed record, replaying clears the
completion flag, but the derived progress read afterwards is 100, not 0 —
the stored progress is merged with `max(previousProgress, …)` and is never
reset. -/
theorem replay_progress_counterexample :
    isPlaybackCompleted (replayCurrent sampleCompletedCaches (some sampleVideoItem) 0 6)
      (some sampleVideoItem) = false ∧
    getPlaybackPercent (replayCurrent sampleCompletedCaches (some sampleVideoItem) 0 6)
      (some sampleVideoItem) = 100 ∧
    ¬ (getPlaybackPercent (replayCurrent sampleCompletedCaches (some sampleVideoItem) 0 6)
      (some sampleVideoItem) = 0) := by
  refine ⟨by decide, by decide, by decide⟩

/-- C1 (amended): for an identity with a stored playback record (store
below capacity, well-formed completed set, stored progress within 0–100),
after `replayCurrent` or `replayFromList` every read of the completion
state returns `completed = false` and the stored time is reset to 0, but
the derived progress read is NOT reset to 0: it remains at least the
previously stored progress (100 for a previously completed record). -/
theorem replay_clears_completion_resets_time (cs : CacheState) (item : Option FeedItem)
    (vd : ℚ) (now : Nat)
    (hp : isPlayableItem item = true)
    (hid : getItemIdentity item ≠ "")
    (hnd : cs.completedSet.Nodup)
    (hlen : cs.store.length < PLAYBACK_STORE_LIMIT)
    (h0 : 0 ≤ ((storeGet cs.store (getItemIdentity item)).getD emptyRecord).progress.getD 0)
    (h100 : ((storeGet cs.store (getItemIdentity item)).getD emptyRecord).progress.getD 0 ≤ 100) :
    (isPlaybackCompleted (replayCurrent cs item vd now) item = false ∧
     (∃ r, storeGet (replayCurrent cs item vd now).store (getItemIdentity item) = some r ∧
        r.time = some 0) ∧
     ((storeGet cs.store (getItemIdentity item)).getD emptyRecord).progress.getD 0 ≤
       getPlaybackPercent (replayCurrent cs item vd now) item) ∧
    (isPlaybackCompleted (replayFromList cs item now) item = false ∧
     (∃ r, storeGet (replayFromList cs item now).store (getItemIdentity item) = some r ∧
        r.time = some 0) ∧
     ((storeGet cs.store (getItemIdentity item)).getD emptyRecord).progress.getD 0 ≤
       getPlaybackPercent (replayFromList cs item now) item) := by
  have hnp : ¬ (¬ isPlayableItem item = true) := by simp [hp]
  have hcur : replayCurrent cs item vd now =
      { store := setStoredPlaybackPosition
          (setStoredPlaybackCompleted cs.store (getItemIdentity item) false now)
          (getItemIdentity item) 0
          (jsOr (((getStoredPlaybackRecord cs.store (getItemIdentity item)).bind
            (fun r => r.duration)).getD 0) vd) true now,
        positions := mapSet cs.positions (getItemIdentity item) 0,
        completedSet := cs.completedSet.erase (getItemIdentity item),
        persisted := mapSet (mapErase cs.persisted (getItemIdentity item))
          (getItemIdentity item) 0 } := by
    unfold replayCurrent
    rw [if_neg hnp, if_neg hid]
  have hlist : replayFromList cs item now =
      { store := setStoredPlaybackPosition
          (setStoredPlaybackCompleted cs.store (getItemIdentity item) false now)
          (getItemIdentity item) 0
          (((getStoredPlaybackRecord
              (setStoredPlaybackCompleted cs.store (getItemIdentity item) false now)
              (getItemIdentity item)).bind (fun r => r.duration)).getD 0) true now,
        positions := mapSet cs.positions (getItemIdentity item) 0,
        completedSet := cs.completedSet.erase (getItemIdentity item),
        persisted := mapSet (mapErase cs.persisted (getItemIdentity item))
          (getItemIdentity item) 0 } := by
    unfold replayFromList
    rw [if_neg hnp, if_neg hid]
  have hmain : ∀ d : ℚ,
      (isPlaybackCompleted
        { store := setStoredPlaybackPosition
            (setStoredPlaybackCompleted cs.store (getItemIdentity item) false now)
            (getItemIdentity item) 0 d true now,
          positions := mapSet cs.positions (getItemIdentity item) 0,
          completedSet := cs.completedSet.erase (getItemIdentity item),
          persisted := mapSet (mapErase cs.persisted (getItemIdentity item))
            (getItemIdentity item) 0 } item = false ∧
       (∃ r, storeGet (setStoredPlaybackPosition
            (setStoredPlaybackCompleted cs.store (getItemIdentity item) false now)
            (getItemIdentity item) 0 d true now) (getItemIdentity item) = some r ∧
          r.time = some 0) ∧
       ((storeGet cs.store (getItemIdentity item)).getD emptyRecord).progress.getD 0 ≤
         getPlaybackPercent
          { store := setStoredPlaybackPosition
              (setStoredPlaybackCompleted cs.store (getItemIdentity item) false now)
              (getItemIdentity item) 0 d true now,
            positions := mapSet cs.positions (getItemIdentity item) 0,
            completedSet := cs.completedSet.erase (getItemIdentity item),
            persisted := mapSet (mapErase cs.persisted (getItemIdentity item))
              (getItemIdentity item) 0 } item) := by
    intro d
    obtain ⟨r2, hg, hcomp, htime, hmono, hnn, hle⟩ :=
      replay_store_trace cs.store (getItemIdentity item) d now now hid hlen h0 h100
    have hmem : getItemIdentity item ∉ cs.completedSet.erase (getItemIdentity item) :=
      hnd.not_mem_erase
    have hrec2 : getStoredPlaybackRecord (setStoredPlaybackPosition
        (setStoredPlaybackCompleted cs.store (getItemIdentity item) false now)
        (getItemIdentity item) 0 d true now) (getItemIdentity item) = some r2 := by
      unfold getStoredPlaybackRecord
      rw [if_neg hid, hg]
    refine ⟨?_, ⟨r2, hg, htime⟩, ?_⟩
    · exact isPlaybackCompleted_false_intro _ item hid hmem (by simp [hrec2, hcomp])
    · exact le_trans hmono (getPlaybackPercent_ge_progress _ item r2 hp hid hg hcomp hmem hnn hle)
  constructor
  · rw [hcur]
    exact hmain _
  · rw [hlist]
    exact hmain _

/-- C1 witness: the amended replay behaviour at the concrete completed
record (previous progress 100 is preserved, completion cleared, time 0). -/
theorem replay_clears_completion_resets_time_witness :
    isPlaybackCompleted (replayCurrent sampleCompletedCaches (some sampleVideoItem) 0 6)
      (some sampleVideoItem) = false ∧
    (∃ r, storeGet (replayCurrent sampleCompletedCaches (some sampleVideoItem) 0 6).store
        (getItemIdentity (some sampleVideoItem)) = some r ∧ r.time = some 0) ∧
    ((storeGet sampleCompletedCaches.store (getItemIdentity (some sampleVideoItem))).getD
        emptyRecord).progress.getD 0 ≤
      getPlaybackPercent (replayCurrent sampleCompletedCaches (some sampleVideoItem) 0 6)
        (some sampleVideoItem) :=
  (replay_clears_completion_resets_time sampleCompletedCaches (some sampleVideoItem) 0 6
    (by decide) (by decide) (by decide) (by decide) (by decide) (by decide)).1

/-- C2: after any sequence of record upserts starting from a well-formed
store within capacity, the number of distinct identities never exceeds
`PLAYBACK_STORE_LIMIT` (180); pruning cuts an over-limit store to exactly
the limit (`min length 180`); and eviction removes exactly entries with
globally smallest `updated_at`: every evicted entry's `updated_at` is at
most that of every kept entry. -/
theorem playbackStore_capacity_policy :
    (∀ (s : Store) (ops : List (String × UpdatePayload × Nat)),
      StoreWF s → s.length ≤ PLAYBACK_STORE_LIMIT →
      (applyOps s ops).length ≤ PLAYBACK_STORE_LIMIT) ∧
    (∀ s : Store, StoreWF s →
      (prunePlaybackStore s).length = min s.length PLAYBACK_STORE_LIMIT) ∧
    (∀ s : Store, StoreWF s → ∀ e ∈ s, e ∉ prunePlaybackStore s →
      ∀ k ∈ prunePlaybackStore s, e.2.updated_at ≤ k.2.updated_at) := by
  refine ⟨?_, ?_, ?_⟩
  · intro s ops h hlen
    exact (applyOps_invariant ops s h hlen).2
  · intro s h
    exact prunePlaybackStore_length s h
  · intro s h
    exact prunePlaybackStore_evicts_oldest s h

/-- C2 witness: one upsert into the empty store stays within capacity. -/
theorem playbackStore_capacity_policy_witness :
    (applyOps [] [("video:a1", { time := some 3 }, 1)]).length ≤ PLAYBACK_STORE_LIMIT :=
  playbackStore_capacity_policy.1 [] [("video:a1", { time := some 3 }, 1)]
    (by decide) (by decide)

/-- C3: across any update sequence without `force`, the stored `time` of a
record is non-decreasing (payload times non-decreasing as in the claim);
the stored `duration` is non-decreasing under all updates; after an update
the progress is pinned to 100 while `completed = true`, and otherwise (for
a valid time and positive duration) equals
`max(previousProgress, floor(time/duration*100))` clamped to 100. -/
theorem updatePlaybackRecord_merge_policy :
    (∀ (r : PlaybackRecord) (ps : List (UpdatePayload × Nat)),
      (∀ q ∈ ps, q.1.force = false) →
      List.Chain' (· ≤ ·) (ps.filterMap (fun q => q.1.time)) →
      r.time.getD 0 ≤ (ps.foldl (fun acc q => applyPayload acc q.1 q.2) r).time.getD 0) ∧
    (∀ (r : PlaybackRecord) (ps : List (UpdatePayload × Nat)),
      r.duration.getD 0 ≤ (ps.foldl (fun acc q => applyPayload acc q.1 q.2) r).duration.getD 0) ∧
    (∀ (r : PlaybackRecord) (p : UpdatePayload) (now : Nat),
      ((applyPayload r p now).completed = true → (applyPayload r p now).progress = some 100) ∧
      (r.progress.getD 0 ≤ 100 → (applyPayload r p now).completed = false →
        ∀ t d : ℚ, (applyPayload r p now).time = some t →
        (applyPayload r p now).duration = some d → 0 < d →
        (applyPayload r p now).progress =
          some (min 100 (max (r.progress.getD 0) ((Int.floor (t / d * 100) : ℤ) : ℚ))))) := by
  refine ⟨?_, ?_, ?_⟩
  · intro r ps hf _
    exact foldl_applyPayload_time_mono ps r hf
  · intro r ps
    exact foldl_applyPayload_duration_mono ps r
  · intro r p now
    constructor
    · intro hc
      rw [applyPayload_completed_eq] at hc
      rw [applyPayload_progress]
      unfold recomputeProgress
      rw [if_pos hc]
    · intro h100 hc t d ht hd hdpos
      rw [applyPayload_completed_eq] at hc
      rw [applyPayload_time_eq] at ht
      rw [applyPayload_duration_eq] at hd
      rw [applyPayload_progress]
      unfold recomputeProgress
      rw [if_neg (by simp [hc])]
      rw [if_pos (by refine ⟨by simp [ht], by simp [hd], ?_⟩; rw [hd]; simpa using hdpos)]
      rw [ht, hd]
      simp only [Option.getD_some]
      rw [max_min_comm_100 _ _ h100]

/-- C3 witness: the merge policy applied at concrete inputs. -/
theorem updatePlaybackRecord_merge_policy_witness :
    emptyRecord.time.getD 0 ≤
      (([({ time := some 5, duration := some 10 }, 1),
         ({ time := some 7 }, 2)] : List (UpdatePayload × Nat)).foldl
        (fun acc q => applyPayload acc q.1 q.2) emptyRecord).time.getD 0 ∧
    (applyPayload { progress := some 50 } { completed := some true } 3).progress = some 100 :=
  ⟨updatePlaybackRecord_merge_policy.1 emptyRecord
    [({ time := some 5, duration := some 10 }, 1), ({ time := some 7 }, 2)]
    (by decide) (by norm_num [List.chain'_cons, List.filterMap]),
   (updatePlaybackRecord_merge_policy.2.2 { progress := some 50 }
    { completed := some true } 3).1 (by decide)⟩

/-- C4: for every non-empty candidate list, source selection returns the
forced id when present in the list; otherwise the current source id when
present; otherwise the persisted preference when present; otherwise the
backend default when present; otherwise the first candidate's id.  With
candidates `[{id:"a"},{id:"b"}]`, no active source and preference `"b"`,
selection with no forced id yields `"b"`, and forcing `"a"` yields `"a"`
regardless of the preference. -/
theorem pickVideoSourceId_selection_policy :
    (∀ (sources : List SourceCandidate) (detail : ItemDetail) (forced current preferred : String),
      sources ≠ [] →
      (((jsTrim forced ≠ "" ∧ jsTrim forced ∈ sources.map (fun s => s.id)) →
        pickVideoSourceId sources detail forced current preferred = jsTrim forced) ∧
      (¬ (jsTrim forced ≠ "" ∧ jsTrim forced ∈ sources.map (fun s => s.id)) →
        (jsTrim current ≠ "" ∧ jsTrim current ∈ sources.map (fun s => s.id)) →
        pickVideoSourceId sources detail forced current preferred = jsTrim current) ∧
      (¬ (jsTrim forced ≠ "" ∧ jsTrim forced ∈ sources.map (fun s => s.id)) →
        ¬ (jsTrim current ≠ "" ∧ jsTrim current ∈ sources.map (fun s => s.id)) →
        (jsTrim preferred ≠ "" ∧ jsTrim preferred ∈ sources.map (fun s => s.id)) →
        pickVideoSourceId sources detail forced current preferred = jsTrim preferred) ∧
      (¬ (jsTrim forced ≠ "" ∧ jsTrim forced ∈ sources.map (fun s => s.id)) →
        ¬ (jsTrim current ≠ "" ∧ jsTrim current ∈ sources.map (fun s => s.id)) →
        ¬ (jsTrim preferred ≠ "" ∧ jsTrim preferred ∈ sources.map (fun s => s.id)) →
        (jsTrim detail.default_video_source ≠ "" ∧
          jsTrim detail.default_video_source ∈ sources.map (fun s => s.id)) →
        pickVideoSourceId sources detail forced current preferred =
          jsTrim detail.default_video_source) ∧
      (¬ (jsTrim forced ≠ "" ∧ jsTrim forced ∈ sources.map (fun s => s.id)) →
        ¬ (jsTrim current ≠ "" ∧ jsTrim current ∈ sources.map (fun s => s.id)) →
        ¬ (jsTrim preferred ≠ "" ∧ jsTrim preferred ∈ sources.map (fun s => s.id)) →
        ¬ (jsTrim detail.default_video_source ≠ "" ∧
            jsTrim detail.default_video_source ∈ sources.map (fun s => s.id)) →
        pickVideoSourceId sources detail forced current preferred =
          ((sources.head?).map (fun s => s.id)).getD ""))) ∧
    pickVideoSourceId [{ id := "a", label := "", url := "" }, { id := "b", label := "", url := "" }]
      {} "" "" "b" = "b" ∧
    (∀ preferred,
      pickVideoSourceId [{ id := "a", label := "", url := "" }, { id := "b", label := "", url := "" }]
        {} "a" "" preferred = "a") := by
  have general : ∀ (sources : List SourceCandidate) (detail : ItemDetail)
      (forced current preferred : String), sources ≠ [] →
      (((jsTrim forced ≠ "" ∧ jsTrim forced ∈ sources.map (fun s => s.id)) →
        pickVideoSourceId sources detail forced current preferred = jsTrim forced) ∧
      (¬ (jsTrim forced ≠ "" ∧ jsTrim forced ∈ sources.map (fun s => s.id)) →
        (jsTrim current ≠ "" ∧ jsTrim current ∈ sources.map (fun s => s.id)) →
        pickVideoSourceId sources detail forced current preferred = jsTrim current) ∧
      (¬ (jsTrim forced ≠ "" ∧ jsTrim forced ∈ sources.map (fun s => s.id)) →
        ¬ (jsTrim current ≠ "" ∧ jsTrim current ∈ sources.map (fun s => s.id)) →
        (jsTrim preferred ≠ "" ∧ jsTrim preferred ∈ sources.map (fun s => s.id)) →
        pickVideoSourceId sources detail forced current preferred = jsTrim preferred) ∧
      (¬ (jsTrim forced ≠ "" ∧ jsTrim forced ∈ sources.map (fun s => s.id)) →
        ¬ (jsTrim current ≠ "" ∧ jsTrim current ∈ sources.map (fun s => s.id)) →
        ¬ (jsTrim preferred ≠ "" ∧ jsTrim preferred ∈ sources.map (fun s => s.id)) →
        (jsTrim detail.default_video_source ≠ "" ∧
          jsTrim detail.default_video_source ∈ sources.map (fun s => s.id)) →
        pickVideoSourceId sources detail forced current preferred =
          jsTrim detail.default_video_source) ∧
      (¬ (jsTrim forced ≠ "" ∧ jsTrim forced ∈ sources.map (fun s => s.id)) →
        ¬ (jsTrim current ≠ "" ∧ jsTrim current ∈ sources.map (fun s => s.id)) →
        ¬ (jsTrim preferred ≠ "" ∧ jsTrim preferred ∈ sources.map (fun s => s.id)) →
        ¬ (jsTrim detail.default_video_source ≠ "" ∧
            jsTrim detail.default_video_source ∈ sources.map (fun s => s.id)) →
        pickVideoSourceId sources detail forced current preferred =
          ((sources.head?).map (fun s => s.id)).getD "")) := by
    intro sources detail forced current preferred hne
    have h0 : ¬ (sources.length = 0) := by simpa [List.length_eq_zero] using hne
    refine ⟨fun hf => ?_, fun hf hc => ?_, fun hf hc hp => ?_, fun hf hc hp hd => ?_,
      fun hf hc hp hd => ?_⟩
    · simp only [pickVideoSourceId, if_neg h0, if_pos hf]
    · simp only [pickVideoSourceId, if_neg h0, if_neg hf, if_pos hc]
    · simp only [pickVideoSourceId, if_neg h0, if_neg hf, if_neg hc, if_pos hp]
    · simp only [pickVideoSourceId, if_neg h0, if_neg hf, if_neg hc, if_neg hp, if_pos hd]
    · simp only [pickVideoSourceId, if_neg h0, if_neg hf, if_neg hc, if_neg hp, if_neg hd]
  refine ⟨general, ?_, ?_⟩
  · have h := (general [{ id := "a", label := "", url := "" }, { id := "b", label := "", url := "" }]
      {} "" "" "b" (by simp)).2.2.1 (by decide) (by decide) ⟨by decide, by decide⟩
    simpa [jsTrim_b] using h
  · intro preferred
    have h := (general [{ id := "a", label := "", url := "" }, { id := "b", label := "", url := "" }]
      {} "a" "" preferred (by simp)).1 ⟨by decide, by decide⟩
    simpa [jsTrim_a] using h

/-- C4 witness: the selection policy applied at a concrete input. -/
theorem pickVideoSourceId_selection_policy_witness :
    pickVideoSourceId [{ id := "a", label := "", url := "" }, { id := "b", label := "", url := "" }]
      {} "" "" "b" = "b" :=
  pickVideoSourceId_selection_policy.2.1

/-- C5 counterexample: with an in-memory cached offset of 2 and a durable
store offset of 50, preparing playback resumes at 2 — the cached offset
wins whenever it exceeds 1, so the resume offset is not the larger of the
two. -/
theorem preparePlaybackState_resume_counterexample :
    (preparePlaybackState sampleDivergedCaches (some sampleVideoItem)).2.resumeTime = 2 ∧
    getStoredPlaybackPosition sampleDivergedCaches.store
      (getItemIdentity (some sampleVideoItem)) = 50 ∧
    ¬ ((preparePlaybackState sampleDivergedCaches (some sampleVideoItem)).2.resumeTime =
        max ((mapFind sampleDivergedCaches.positions
            (getItemIdentity (some sampleVideoItem))).getD 0)
          (getStoredPlaybackPosition sampleDivergedCaches.store
            (getItemIdentity (some sampleVideoItem)))) := by
  refine ⟨by decide, by decide, by decide⟩

/-- C5 (amended): when an item becomes active, a record marked completed
suppresses autoplay, exposes the replay affordance and sets no resume
offset; otherwise the resume offset is the in-memory cached offset when it
exceeds 1 time unit, else the durable store's offset when that exceeds 1,
else 0 (offsets of at most 1 are ignored; the store is consulted only when
the cached offset is not used). -/
theorem preparePlaybackState_policy (cs : CacheState) (item : Option FeedItem)
    (hp : isPlayableItem item = true) (hid : getItemIdentity item ≠ "") :
    (((getStoredPlaybackRecord cs.store (getItemIdentity item)).map
        (fun r => r.completed)).getD false = true →
      (preparePlaybackState cs item).2 =
        { suppressAutoplay := true, replayReady := true, resumeTime := 0 }) ∧
    (((getStoredPlaybackRecord cs.store (getItemIdentity item)).map
        (fun r => r.completed)).getD false = false →
      getItemIdentity item ∉ cs.completedSet →
      (preparePlaybackState cs item).2.suppressAutoplay = false ∧
      (preparePlaybackState cs item).2.replayReady = false ∧
      (preparePlaybackState cs item).2.resumeTime =
        (if 1 < (mapFind cs.positions (getItemIdentity item)).getD 0 then
           (mapFind cs.positions (getItemIdentity item)).getD 0
         else if 1 < getStoredPlaybackPosition cs.store (getItemIdentity item) then
           getStoredPlaybackPosition cs.store (getItemIdentity item)
         else 0)) := by
  have hnp : ¬ (¬ isPlayableItem item = true) := by simp [hp]
  constructor
  · intro hcomp
    unfold preparePlaybackState
    rw [if_neg hnp, if_neg hid]
    simp only [hcomp, if_true]
    rw [if_pos (setAdd_mem_self _ _)]
  · intro hcomp hnm
    unfold preparePlaybackState
    rw [if_neg hnp, if_neg hid]
    simp only [hcomp, Bool.false_eq_true, if_false]
    rw [if_neg (by simpa using hnm)]
    refine ⟨?_, ?_, ?_⟩ <;> split_ifs <;> simp_all <;> linarith

/-- C5 witness: the completed-record branch at a concrete completed cache:
autoplay suppressed, replay affordance on, no resume offset. -/
theorem preparePlaybackState_policy_witness :
    (preparePlaybackState sampleCompletedCaches (some sampleVideoItem)).2 =
      { suppressAutoplay := true, replayReady := true, resumeTime := 0 } :=
  (preparePlaybackState_policy sampleCompletedCaches (some sampleVideoItem)
    (by decide) (by decide)).1 (by decide)

/-- C6 counterexample: a success signal does not reset the network retry
counter (it only resets the on-demand heal bookkeeping), contradicting the
claim that a `playing`/`canplay` signal resets all retry counters. -/
theorem hls_success_reset_counterexample :
    ¬ ((hlsRun {} [HlsEvent.fault HlsFaultKind.network, HlsEvent.success]).recovery.network = 0) := by
  decide

/-- Invariant run lemma for the hls recovery machine: starting clean, a
fault-only run within all three allowances just accumulates the counters
and never sets the terminal error. -/
theorem hlsRun_fault_counts (es : List HlsEvent) : ∀ st : LiveStreamState,
    (∀ e ∈ es, e ≠ HlsEvent.success) →
    st.playerError = "" →
    st.recovery.network + es.count (HlsEvent.fault HlsFaultKind.network) ≤ HLS_NETWORK_RETRY_LIMIT →
    st.recovery.media + es.count (HlsEvent.fault HlsFaultKind.media) ≤ HLS_MEDIA_RETRY_LIMIT →
    st.recovery.rebuild + es.count (HlsEvent.fault HlsFaultKind.other) ≤ HLS_REBUILD_LIMIT →
    (hlsRun st es).playerError = "" ∧
    (hlsRun st es).recovery.network =
      st.recovery.network + es.count (HlsEvent.fault HlsFaultKind.network) ∧
    (hlsRun st es).recovery.media =
      st.recovery.media + es.count (HlsEvent.fault HlsFaultKind.media) ∧
    (hlsRun st es).recovery.rebuild =
      st.recovery.rebuild + es.count (HlsEvent.fault HlsFaultKind.other) := by
  induction es with
  | nil => intro st _ herr _ _ _; simpa [hlsRun] using herr
  | cons e rest ih =>
    intro st hns herr hn hm hr
    obtain ⟨k, rfl⟩ : ∃ k, e = HlsEvent.fault k := by
      cases e with
      | fault k => exact ⟨k, rfl⟩
      | success => exact absurd rfl (hns _ (by simp))
    have hrest : ∀ e ∈ rest, e ≠ HlsEvent.success := fun e he => hns e (by simp [he])
    have hrun : hlsRun st (HlsEvent.fault k :: rest) = hlsRun (handleHlsError st k) rest := rfl
    cases k with
    | network =>
      have hcnt : (HlsEvent.fault HlsFaultKind.network :: rest).count
          (HlsEvent.fault HlsFaultKind.network) =
          rest.count (HlsEvent.fault HlsFaultKind.network) + 1 := by
        simp [List.count_cons]
      have hcnt2 : (HlsEvent.fault HlsFaultKind.network :: rest).count
          (HlsEvent.fault HlsFaultKind.media) =
          rest.count (HlsEvent.fault HlsFaultKind.media) := by
        simp [List.count_cons]
      have hcnt3 : (HlsEvent.fault HlsFaultKind.network :: rest).count
          (HlsEvent.fault HlsFaultKind.other) =
          rest.count (HlsEvent.fault HlsFaultKind.other) := by
        simp [List.count_cons]
      rw [hcnt] at hn
      have hlt : st.recovery.network < HLS_NETWORK_RETRY_LIMIT := by omega
      have hstep : handleHlsError st HlsFaultKind.network =
          { st with recovery := { st.recovery with network := st.recovery.network + 1 } } := by
        simp [handleHlsError, if_pos hlt]
      have key := ih { st with recovery := { st.recovery with network := st.recovery.network + 1 } }
        hrest herr
        (by show st.recovery.network + 1 + _ ≤ _; omega)
        (by show st.recovery.media + _ ≤ _; omega)
        (by show st.recovery.rebuild + _ ≤ _; omega)
      rw [hrun, hstep, hcnt, hcnt2, hcnt3]
      refine ⟨key.1, ?_, ?_, ?_⟩
      · rw [key.2.1]; show st.recovery.network + 1 + _ = _; omega
      · rw [key.2.2.1]
      · rw [key.2.2.2]
    | media =>
      have hcnt : (HlsEvent.fault HlsFaultKind.media :: rest).count
          (HlsEvent.fault HlsFaultKind.media) =
          rest.count (HlsEvent.fault HlsFaultKind.media) + 1 := by
        simp [List.count_cons]
      have hcnt2 : (HlsEvent.fault HlsFaultKind.media :: rest).count
          (HlsEvent.fault HlsFaultKind.network) =
          rest.count (HlsEvent.fault HlsFaultKind.network) := by
        simp [List.count_cons]
      have hcnt3 : (HlsEvent.fault HlsFaultKind.media :: rest).count
          (HlsEvent.fault HlsFaultKind.other) =
          rest.count (HlsEvent.fault HlsFaultKind.other) := by
        simp [List.count_cons]
      rw [hcnt] at hm
      have hlt : st.recovery.media < HLS_MEDIA_RETRY_LIMIT := by omega
      have hstep : handleHlsError st HlsFaultKind.media =
          { st with recovery := { st.recovery with media := st.recovery.media + 1 } } := by
        simp [handleHlsError, if_pos hlt]
      have key := ih { st with recovery := { st.recovery with media := st.recovery.media + 1 } }
        hrest herr
        (by show st.recovery.network + _ ≤ _; omega)
        (by show st.recovery.media + 1 + _ ≤ _; omega)
        (by show st.recovery.rebuild + _ ≤ _; omega)
      rw [hrun, hstep, hcnt, hcnt2, hcnt3]
      refine ⟨key.1, ?_, ?_, ?_⟩
      · rw [key.2.1]
      · rw [key.2.2.1]; show st.recovery.media + 1 + _ = _; omega
      · rw [key.2.2.2]
    | other =>
      have hcnt : (HlsEvent.fault HlsFaultKind.other :: rest).count
          (HlsEvent.fault HlsFaultKind.other) =
          rest.count (HlsEvent.fault HlsFaultKind.other) + 1 := by
        simp [List.count_cons]
      have hcnt2 : (HlsEvent.fault HlsFaultKind.other :: rest).count
          (HlsEvent.fault HlsFaultKind.network) =
          rest.count (HlsEvent.fault HlsFaultKind.network) := by
        simp [List.count_cons]
      have hcnt3 : (HlsEvent.fault HlsFaultKind.other :: rest).count
          (HlsEvent.fault HlsFaultKind.media) =
          rest.count (HlsEvent.fault HlsFaultKind.media) := by
        simp [List.count_cons]
      rw [hcnt] at hr
      have hlt : st.recovery.rebuild < HLS_REBUILD_LIMIT := by omega
      have hstep : handleHlsError st HlsFaultKind.other =
          { st with recovery := { st.recovery with rebuild := st.recovery.rebuild + 1 } } := by
        simp [handleHlsError, hlsRebuildStep, if_pos hlt]
      have key := ih { st with recovery := { st.recovery with rebuild := st.recovery.rebuild + 1 } }
        hrest herr
        (by show st.recovery.network + _ ≤ _; omega)
        (by show st.recovery.media + _ ≤ _; omega)
        (by show st.recovery.rebuild + 1 + _ ≤ _; omega)
      rw [hrun, hstep, hcnt, hcnt2, hcnt3]
      refine ⟨key.1, ?_, ?_, ?_⟩
      · rw [key.2.1]
      · rw [key.2.2.1]
      · rw [key.2.2.2]; show st.recovery.rebuild + 1 + _ = _; omega

/-- C6 (amended): fault-only runs within the network (4), media (2) and
rebuild (2) allowances never set the terminal error; the terminal
"直播流连接异常" error is set only when the rebuild allowance is already
exhausted; a success signal resets the heal bookkeeping but leaves the
hls retry counters unchanged (they reset only on pipeline re-attach);
and one fault beyond the exhausted allowances does set the error. -/
theorem hls_recovery_bounded :
    (∀ es : List HlsEvent,
      (∀ e ∈ es, e ≠ HlsEvent.success) →
      es.count (HlsEvent.fault HlsFaultKind.network) ≤ HLS_NETWORK_RETRY_LIMIT →
      es.count (HlsEvent.fault HlsFaultKind.media) ≤ HLS_MEDIA_RETRY_LIMIT →
      es.count (HlsEvent.fault HlsFaultKind.other) ≤ HLS_REBUILD_LIMIT →
      (hlsRun {} es).playerError = "") ∧
    (∀ st e, (hlsStep st e).playerError ≠ st.playerError →
      HLS_REBUILD_LIMIT ≤ st.recovery.rebuild ∧
      (hlsStep st e).playerError = "直播流连接异常") ∧
    (∀ st, (hlsStep st HlsEvent.success).heal = resetPlaybackHeal st.heal ∧
      (hlsStep st HlsEvent.success).recovery = st.recovery ∧
      (hlsStep st HlsEvent.success).playerError = st.playerError) ∧
    (hlsRun {} (List.replicate 4 (HlsEvent.fault HlsFaultKind.network) ++
      List.replicate 2 (HlsEvent.fault HlsFaultKind.media) ++
      List.replicate 3 (HlsEvent.fault HlsFaultKind.other))).playerError = "直播流连接异常" := by
  refine ⟨?_, ?_, ?_, by decide⟩
  · intro es hns hn hm hr
    exact (hlsRun_fault_counts es {} hns rfl (by simpa using hn) (by simpa using hm)
      (by simpa using hr)).1
  · intro st e h
    cases e with
    | success => simp [hlsStep, handlePlaybackRecovered] at h
    | fault k =>
      cases k <;> simp only [hlsStep, handleHlsError, hlsRebuildStep] at h ⊢ <;>
        split_ifs at h ⊢ <;> simp_all
  · intro st
    exact ⟨rfl, rfl, rfl⟩

/-- C6 witness: a run with exactly the allowed number of each fault kind
ends with no terminal error. -/
theorem hls_recovery_bounded_witness :
    (hlsRun {} (List.replicate 4 (HlsEvent.fault HlsFaultKind.network) ++
      List.replicate 2 (HlsEvent.fault HlsFaultKind.media) ++
      List.replicate 2 (HlsEvent.fault HlsFaultKind.other))).playerError = "" :=
  hls_recovery_bounded.1 _ (by decide) (by decide) (by decide) (by decide)

/-- C7: for every silent refresh reconciliation: (a) if the refreshed
page-1 list still contains the active identity at index `j`, the active
index becomes `j` with the player, pending source resolution and caches
untouched (no teardown or re-attachment); (b) if the identity is absent
and the cause indicates deletion, the "content removed" notice is
surfaced and playback is torn down (attachment dropped, index cleared);
(c) otherwise the first item is selected (active index 0); (d) an empty
refreshed list always clears the active selection (index −1). -/
theorem refreshFeedSilently_reconciliation (st : AppState) (cause : String)
    (fetchedItems : List FeedItem) (fetchedTotal : Nat) (now : Nat) :
    (∀ j : Nat, fetchedItems ≠ [] →
      jsOrS (getItemIdentity (activeItem st)) st.activeIdentityLS ≠ "" →
      findIndexByIdentity fetchedItems
        (jsOrS (getItemIdentity (activeItem st)) st.activeIdentityLS) = some j →
      (refreshFeedSilently st cause fetchedItems fetchedTotal now).activeIndex = (j : Int) ∧
      (refreshFeedSilently st cause fetchedItems fetchedTotal now).player = st.player ∧
      (refreshFeedSilently st cause fetchedItems fetchedTotal now).pendingResolve =
        st.pendingResolve ∧
      (refreshFeedSilently st cause fetchedItems fetchedTotal now).cache = st.cache ∧
      (refreshFeedSilently st cause fetchedItems fetchedTotal now).items = fetchedItems) ∧
    (fetchedItems ≠ [] →
      (jsOrS (getItemIdentity (activeItem st)) st.activeIdentityLS = "" ∨
        findIndexByIdentity fetchedItems
          (jsOrS (getItemIdentity (activeItem st)) st.activeIdentityLS) = none) →
      (cause = "delete" ∨ cause = "cleanup") →
      (refreshFeedSilently st cause fetchedItems fetchedTotal now).player.notice =
        "当前作品已删除" ∧
      (refreshFeedSilently st cause fetchedItems fetchedTotal now).player.src = "" ∧
      (refreshFeedSilently st cause fetchedItems fetchedTotal now).activeIndex = -1) ∧
    (fetchedItems ≠ [] →
      (jsOrS (getItemIdentity (activeItem st)) st.activeIdentityLS = "" ∨
        findIndexByIdentity fetchedItems
          (jsOrS (getItemIdentity (activeItem st)) st.activeIdentityLS) = none) →
      ¬ (cause = "delete" ∨ cause = "cleanup") →
      (refreshFeedSilently st cause fetchedItems fetchedTotal now).activeIndex = 0) ∧
    (fetchedItems = [] →
      (refreshFeedSilently st cause fetchedItems fetchedTotal now).activeIndex = -1) := by
  refine ⟨?_, ?_, ?_, ?_⟩
  · intro j hne hid hfind
    have hscrut : (if jsOrS (getItemIdentity (activeItem st)) st.activeIdentityLS ≠ "" then
        findIndexByIdentity fetchedItems
          (jsOrS (getItemIdentity (activeItem st)) st.activeIdentityLS) else none) = some j := by
      rw [if_pos hid, hfind]
    simp only [refreshFeedSilently, List.length_eq_zero, hne, if_false, hscrut]
    refine ⟨?_, ?_, ?_, ?_, ?_⟩ <;> trivial
  · intro hne hmiss hdel
    have hscrut : (if jsOrS (getItemIdentity (activeItem st)) st.activeIdentityLS ≠ "" then
        findIndexByIdentity fetchedItems
          (jsOrS (getItemIdentity (activeItem st)) st.activeIdentityLS) else none) = none := by
      rcases hmiss with h | h
      · rw [if_neg (by simp [h])]
      · split
        · exact h
        · rfl
    simp only [refreshFeedSilently, List.length_eq_zero, hne, if_false, hscrut, hdel]
    refine ⟨?_, ?_, ?_⟩ <;> trivial
  · intro hne hmiss hdel
    have hscrut : (if jsOrS (getItemIdentity (activeItem st)) st.activeIdentityLS ≠ "" then
        findIndexByIdentity fetchedItems
          (jsOrS (getItemIdentity (activeItem st)) st.activeIdentityLS) else none) = none := by
      rcases hmiss with h | h
      · rw [if_neg (by simp [h])]
      · split
        · exact h
        · rfl
    simp only [refreshFeedSilently, List.length_eq_zero, hne, if_false, hscrut]
    rw [if_neg hdel]
    have hb : ¬ ((0 : Int) < 0 ∨ (fetchedItems.length : Int) ≤ 0) := by
      have : fetchedItems.length ≠ 0 := by simpa [List.length_eq_zero] using hne
      omega
    simp only [selectItem, hb, if_false]
    by_cases hsame : (0 : Int) = st.activeIndex
    · rw [if_pos hsame]
      simp [← hsame]
    · rw [if_neg hsame]
      cases hget : fetchedItems.get? (0 : Int).toNat with
      | none =>
        exfalso
        rw [List.get?_eq_none] at hget
        exact hne (List.length_eq_zero.mp (Nat.le_zero.mp (by simpa using hget)))
      | some item =>
        have hget2 : fetchedItems[(0 : Nat)]? = some item := by
          simpa [List.get?_eq_getElem?] using hget
        simp [persistOutgoing_cache_only, hget2]
        try split <;> rfl
  · intro hempty
    simp only [refreshFeedSilently, hempty, List.length_nil, if_true]
    split
    · rfl
    · rfl

/-- C7 witness: a refresh whose page-1 list still holds the active
identity at a new index updates the index and leaves the player intact. -/
theorem refreshFeedSilently_reconciliation_witness :
    (refreshFeedSilently sampleSameIndexState "" [{ type := "note", aweme_id := "zz" },
        sampleVideoItem] 2 0).activeIndex = (1 : Int) ∧
    (refreshFeedSilently sampleSameIndexState "" [{ type := "note", aweme_id := "zz" },
        sampleVideoItem] 2 0).player = sampleSameIndexState.player :=
  ⟨((refreshFeedSilently_reconciliation sampleSameIndexState "" [{ type := "note", aweme_id := "zz" },
      sampleVideoItem] 2 0).1 1 (by simp) (by decide) (by decide)).1,
   ((refreshFeedSilently_reconciliation sampleSameIndexState "" [{ type := "note", aweme_id := "zz" },
      sampleVideoItem] 2 0).1 1 (by simp) (by decide) (by decide)).2.1⟩

/-- C8 counterexample: selecting the already-active index is not a pure
no-op on session state — it resets the playback-heal retry bookkeeping
(fault-recovery state of the session). -/
theorem selectItem_same_index_counterexample :
    ¬ ((selectItem sampleSameIndexState 0 true false 0).heal = sampleSameIndexState.heal) := by
  decide

/-- C8 (amended): selecting the already-active (in-range) index performs no
navigation or teardown: the feed list, active index, player attachment,
caches, resume state and pending resolution are all unchanged; audio is
unlocked when the selection is a user action; the only other effect on the
modelled session state is the reset of the playback-heal bookkeeping (a
forced membership re-check is dispatched externally). -/
theorem selectItem_same_index_frame (st : AppState) (index : Int) (userAction keep : Bool)
    (now : Nat) (h0 : 0 ≤ index) (h1 : index < st.items.length) (heq : index = st.activeIndex) :
    selectItem st index userAction keep now =
      { st with heal := resetPlaybackHeal st.heal,
                audioUnlocked := st.audioUnlocked || userAction } := by
  have hb : ¬ (index < 0 ∨ (st.items.length : Int) ≤ index) := by omega
  simp only [selectItem, if_neg hb, if_pos heq]
  cases userAction <;> simp [unlockAudio]

/-- C8 witness: the frame condition applied at a concrete state with a
pending heal counter. -/
theorem selectItem_same_index_frame_witness :
    selectItem sampleSameIndexState 0 true false 0 =
      { sampleSameIndexState with
          heal := resetPlaybackHeal sampleSameIndexState.heal,
          audioUnlocked := sampleSameIndexState.audioUnlocked || true } :=
  selectItem_same_index_frame sampleSameIndexState 0 true false 0
    (by decide) (by decide) (by decide)

/-- C10 counterexample: items of the distinct types `video` and
`live_record` with the same content id map to the same non-empty identity
string — the identity function does not give every type a distinct
prefix. -/
theorem getItemIdentity_counterexample :
    getItemIdentity (some { type := "video", aweme_id := "a1" }) =
      getItemIdentity (some { type := "live_record", aweme_id := "a1" }) ∧
    getItemIdentity (some { type := "video", aweme_id := "a1" }) ≠ "" ∧
    ({ type := "video", aweme_id := "a1" } : FeedItem).type ≠
      ({ type := "live_record", aweme_id := "a1" } : FeedItem).type := by
  refine ⟨by decide, by decide, by decide⟩

/-- C10 (amended): the identity function is deterministic (it is a
function); a live item with none of the three live ids, or a recorded item
with no content id, maps to the empty identity; identities of live-typed,
note-typed and other-typed items never collide across those three classes
(the `live:` / `note:` / `video:` prefixes differ) — though `video` and
`live_record` share the `video:` prefix; and operations keyed by an empty
identity leave the record store, the position/completion caches and the
membership cache unchanged. -/
theorem getItemIdentity_contract :
    (∀ i : FeedItem, i.type = "live" → i.sec_user_id = "" → i.web_rid = "" → i.room_id = "" →
      getItemIdentity (some i) = "") ∧
    (∀ i : FeedItem, i.type ≠ "live" → i.aweme_id = "" → getItemIdentity (some i) = "") ∧
    (∀ i j : FeedItem, i.type = "live" → j.type ≠ "live" →
      getItemIdentity (some i) ≠ "" → getItemIdentity (some i) ≠ getItemIdentity (some j)) ∧
    (∀ i j : FeedItem, i.type = "note" → j.type ≠ "note" → j.type ≠ "live" →
      getItemIdentity (some i) ≠ "" → getItemIdentity (some i) ≠ getItemIdentity (some j)) ∧
    (∀ s p now, updatePlaybackRecord s "" p now = s) ∧
    (∀ cs item, getItemIdentity item = "" → preparePlaybackState cs item = (cs, {})) ∧
    (∀ cs item d now, getItemIdentity item = "" → replayCurrent cs item d now = cs) ∧
    (∀ cs item now, getItemIdentity item = "" → replayFromList cs item now = cs) ∧
    (∀ m pl isMember, writePlaylistMembership m pl "" isMember = m) := by
  refine ⟨?_, ?_, ?_, ?_, ?_, ?_, ?_, ?_, ?_⟩
  · intro i ht h1 h2 h3
    simp [getItemIdentity, ht, jsOrS, h1, h2, h3]
  · intro i ht h1
    simp [getItemIdentity, if_neg ht, h1]
  · intro i j hi hj hne
    rw [live_identity_shape i hi hne]
    by_cases hj2 : getItemIdentity (some j) = ""
    · rw [hj2]
      exact string_prefixed_ne_empty _ _ (by decide)
    · rw [recorded_identity_shape j hj hj2]
      by_cases hn : j.type = "note"
      · rw [if_pos hn]
        exact string_live_ne_note _ _
      · rw [if_neg hn]
        exact string_live_ne_video _ _
  · intro i j hi hjn hjl hne
    have hil : i.type ≠ "live" := by rw [hi]; decide
    rw [recorded_identity_shape i hil hne, if_pos hi]
    by_cases hj2 : getItemIdentity (some j) = ""
    · rw [hj2]
      exact string_prefixed_ne_empty _ _ (by decide)
    · rw [recorded_identity_shape j hjl hj2, if_neg hjn]
      exact string_note_ne_video _ _
  · intro s p now
    simp [updatePlaybackRecord]
  · intro cs item hid
    by_cases hp : isPlayableItem item
    · simp [preparePlaybackState, hp, hid]
    · simp [preparePlaybackState, hp]
  · intro cs item d now hid
    by_cases hp : isPlayableItem item
    · simp [replayCurrent, hp, hid]
    · simp [replayCurrent, hp]
  · intro cs item now hid
    by_cases hp : isPlayableItem item
    · simp [replayFromList, hp, hid]
    · simp [replayFromList, hp]
  · intro m pl isMember
    simp [writePlaylistMembership, playlistMembershipKey, jsTrim]

/-- C10 witness: the empty-identity and collision-freedom clauses applied
at concrete items. -/
theorem getItemIdentity_contract_witness :
    getItemIdentity (some { type := "live" }) = "" ∧
    getItemIdentity (some { type := "live", sec_user_id := "u1" }) ≠
      getItemIdentity (some { type := "note", aweme_id := "u1" }) ∧
    updatePlaybackRecord [] "" {} 0 = [] :=
  ⟨getItemIdentity_contract.1 { type := "live" } rfl rfl rfl rfl,
   getItemIdentity_contract.2.2.1 { type := "live", sec_user_id := "u1" }
     { type := "note", aweme_id := "u1" } rfl (by decide) (by decide),
   getItemIdentity_contract.2.2.2.2.1 [] {} 0⟩

/-- C9: for every detail payload, the normalized candidate list is
deduplicated by lower-cased url; it equals the explicit backend-provided
pass whenever that pass produced any candidate, and only when the explicit
pass produced none does it equal the fallback chain started from an empty
accumulator; the fallback ids appear in the fixed priority order
`local_cache → nas_origin → nas_proxy → douyin`, and every fallback
candidate is one of those four steps with its underlying field non-empty
(local cache needs a content id and a local path; the NAS urls and the
upstream url must trim to a non-empty string). -/
theorem normalizeDetailVideoSources_policy (detail : ItemDetail) :
    ((normalizeDetailVideoSources detail).map (fun s => jsToLower s.url)).Nodup ∧
    ((explicitVideoSources detail).1 ≠ [] →
      normalizeDetailVideoSources detail = (explicitVideoSources detail).1) ∧
    ((explicitVideoSources detail).1 = [] →
      normalizeDetailVideoSources detail = (fallbackVideoSources detail ([], [])).1) ∧
    ((fallbackVideoSources detail ([], [])).1.map (fun s => s.id)).Sublist
      ["local_cache", "nas_origin", "nas_proxy", "douyin"] ∧
    (∀ c ∈ (fallbackVideoSources detail ([], [])).1,
      (c.id = "local_cache" ∧ detail.aweme_id ≠ "" ∧ detail.local_path ≠ "") ∨
      (c.id = "nas_origin" ∧ detail.upload_enabled.getD true = true ∧
        c.url = jsTrim (jsOrS detail.uploaded_origin_url detail.upload_origin_destination) ∧
        c.url ≠ "") ∨
      (c.id = "nas_proxy" ∧ detail.upload_enabled.getD true = true ∧
        c.url = jsTrim (jsOrS detail.uploaded_url detail.upload_destination) ∧ c.url ≠ "") ∨
      (c.id = "douyin" ∧ c.url = jsTrim detail.video_url ∧ c.url ≠ "")) := by
  refine ⟨normalizeDetailVideoSources_nodup detail, ?_, ?_, fallbackVideoSources_ids detail,
    fallbackVideoSources_mem detail⟩
  · intro hne
    simp only [normalizeDetailVideoSources]
    rw [if_neg (by simpa [List.length_eq_zero] using hne)]
  · intro hnil
    have hacc : explicitVideoSources detail = ([], []) :=
      accWF_empty_seen _ (explicitVideoSources_wf detail) hnil
    simp only [normalizeDetailVideoSources]
    rw [if_pos (by simp [hnil]), hacc]

/-- C9 witness: on a detail with no explicit entries, a proxied NAS url and
an upstream url, the policy theorem applies with the empty-explicit-pass
hypothesis discharged concretely. -/
theorem normalizeDetailVideoSources_policy_witness :
    ((normalizeDetailVideoSources sampleDetail).map (fun s => jsToLower s.url)).Nodup ∧
    normalizeDetailVideoSources sampleDetail = (fallbackVideoSources sampleDetail ([], [])).1 ∧
    ((fallbackVideoSources sampleDetail ([], [])).1.map (fun s => s.id)).Sublist
      ["local_cache", "nas_origin", "nas_proxy", "douyin"] :=
  ⟨(normalizeDetailVideoSources_policy sampleDetail).1,
   (normalizeDetailVideoSources_policy sampleDetail).2.2.1 rfl,
   (normalizeDetailVideoSources_policy sampleDetail).2.2.2.1⟩

end PlaybackEngine
